import Mathlib

/-!
# Application lifecycle and frame loop of `CmApplication.cpp`

A shallow embedding of `BansheeEngine::Application`
(`src/BansheeCore/Source/CmApplication.cpp`): plugin file-name resolution,
`loadPlugin` / `unloadPlugin`, `startUp` / `shutDown`, and the lockstep frame
loop `runMainLoop` together with `frameRenderingFinishedCallback` and
`stopMainLoop`.
-/

namespace BansheeEngine

/-! ## Strings and plugin file names -/

/-- The engine's `String` (a `std::basic_string<char>`): a sequence of characters. -/
abbrev CmString := List Char

/-- Faults that end a call abnormally. -/
inductive Fault where
  /-- `std::out_of_range`, thrown by `basic_string::substr` when `pos > size()`. -/
  | outOfRange
  /-- A member access through a null pointer. -/
  | nullDeref
  deriving DecidableEq, Repr

deriving instance DecidableEq for Except

/-- Number of values of `size_t` (64-bit; with 32 bits the wrap-around below is the
same for every name shorter than `2 ^ 32`). -/
def SIZE_T_MOD : Nat := 2 ^ 64

/-- Unsigned subtraction `a - b` on `size_t`: wraps around below zero. -/
def sizeSub (a b : Nat) : Nat := (a + SIZE_T_MOD - b % SIZE_T_MOD) % SIZE_T_MOD

/-- The call `s.substr(pos, n)`: throws `std::out_of_range` when `pos > s.size()`,
otherwise the characters `[pos, min(pos + n, size))`. -/
def substr (s : CmString) (pos n : Nat) : Except Fault CmString :=
  if pos > s.length then .error .outOfRange else .ok ((s.drop pos).take n)

/-- The values of `CM_PLATFORM`. -/
inductive Platform where
  | WIN32
  | LINUX
  | APPLE
  deriving DecidableEq, Repr

/-- The suffix the `#if CM_PLATFORM` branch of `loadPlugin` tests for and appends. -/
def pluginSuffix : Platform → CmString
  | .LINUX => ".so".toList
  | .APPLE => ".dylib".toList
  | .WIN32 => ".dll".toList

/-- One `#if` branch of lines 214-228:
`if (name.substr(name.length() - k, k) != sfx) name += sfx;`.
The `substr` call is evaluated first and may throw. -/
def appendIfMissing (name : CmString) (k : Nat) (sfx : CmString) : Except Fault CmString :=
  match substr name (sizeSub name.length k) k with
  | .error e => .error e
  | .ok t => if t ≠ sfx then .ok (name ++ sfx) else .ok name

/-- Lines 214-228 of `Application::loadPlugin`: the name handed to the library
loader, by the value of `CM_PLATFORM`. -/
def resolvePluginName (p : Platform) (pluginName : CmString) : Except Fault CmString :=
  match p with
  | .LINUX => appendIfMissing pluginName 3 ".so".toList
  | .APPLE => appendIfMissing pluginName 6 ".dylib".toList
  | .WIN32 => appendIfMissing pluginName 4 ".dll".toList

/-! ## Dynamic libraries and the application object -/

/-- An entry point exported by a plugin module (`void* (*)()`); `result` is the
pointer it returns when called, `none` standing for `nullptr`. -/
structure PluginFunc where
  result : Option Nat
  deriving DecidableEq, Repr

/-- A loaded module (`DynLib`): its file name and the symbols it exports. -/
structure DynLib where
  name : CmString
  symbols : List (CmString × PluginFunc)
  deriving DecidableEq, Repr

/-- The call `library->getSymbol(sym)` on a non-null `library`: the exported entry
point, or `none` (`nullptr`) when the module has no such symbol. -/
def DynLib.getSymbol (lib : DynLib) (sym : CmString) : Option PluginFunc :=
  lib.symbols.lookup sym

/-- A render window, by identity. -/
abbrev RenderWindow := Nat

/-- The data members of `Application`. Pointers are options, `none` being `nullptr`. -/
structure Application where
  mPrimaryWindow : Option RenderWindow
  mIsFrameRenderingFinished : Bool
  mRunMainLoop : Bool
  mSceneManagerPlugin : Option DynLib
  deriving DecidableEq, Repr

/-- The constructor `Application::Application()` (lines 48-52). -/
def Application.new : Application :=
  { mPrimaryWindow := none
    mIsFrameRenderingFinished := true
    mRunMainLoop := false
    mSceneManagerPlugin := none }

/-- The subsystems `startUp` brings up and `shutDown` tears down. -/
inductive Subsystem where
  | Platform | MemStack | UUIDGenerator | Profiler | ThreadPool | TaskScheduler
  | CoreThread | StringTable | DeferredCallManager | Time | DynLibManager
  | CoreObjectManager | GameObjectManager | Resources | GpuProgramManager
  | RenderSystemManager | Input | RendererManager | MeshManager | MaterialManager
  | FontManager | Importer
  deriving DecidableEq, Repr

/-- Calls into collaborators made by the lifecycle code, in the order made. -/
inductive LifeEvent where
  /-- `X::startUp()` (for `Platform`, `_startUp`; for `MemStack`, `beginThread`). -/
  | startUp (s : Subsystem)
  /-- `X::shutDown()` (for `Platform`, `_shutDown`; for `MemStack`, `endThread`). -/
  | shutDown (s : Subsystem)
  /-- `TaskScheduler::instance().removeWorker()`. -/
  | removeWorker
  /-- `RenderSystemManager::instance().initialize(renderSystem, ...)`. -/
  | rsInitialize (renderSystem : CmString)
  /-- `RendererManager::instance().setActive(renderer)`. -/
  | setActive (renderer : CmString)
  /-- `gDynLibManager().load(name)` and the handle it returned. -/
  | dynLibLoad (name : CmString) (result : Option DynLib)
  /-- An entry point of `lib` was called. -/
  | invoke (lib : DynLib) (sym : CmString)
  /-- `gDynLibManager().unload(lib)`. -/
  | dynLibUnload (lib : DynLib)
  /-- `mPrimaryWindow->destroy()`. -/
  | windowDestroy (w : RenderWindow)
  deriving DecidableEq, Repr

/-- The collaborators the lifecycle code calls and that are not part of it. -/
structure Env where
  /-- The value of `CM_PLATFORM`. -/
  platform : Platform
  /-- `gDynLibManager().load`: the handle for a file name, `none` when loading fails. -/
  dynLibLoad : CmString → Option DynLib
  /-- `RenderSystemManager::initialize`: the primary window it returns. -/
  rsInitialize : CmString → Option RenderWindow

/-- The application object together with the calls made so far. -/
structure World where
  app : Application
  log : List LifeEvent
  deriving DecidableEq, Repr

/-- How a call ends: normally with a value, or with a fault; the world is the one
reached at that point. -/
inductive Res (α : Type) where
  | ok (a : α) (w : World)
  | fault (f : Fault) (w : World)
  deriving DecidableEq, Repr

/-- A piece of lifecycle code: a function of the world. -/
def Prog (α : Type) : Type := World → Res α

/-- Sequencing: a fault ends the whole computation. -/
def Prog.bind {α β : Type} (m : Prog α) (f : α → Prog β) : Prog β :=
  fun w => match m w with
    | .ok a w1 => f a w1
    | .fault e w1 => .fault e w1

instance : Monad Prog where
  pure a := fun w => .ok a w
  bind := Prog.bind

/-- Record a call. -/
def emit (e : LifeEvent) : Prog Unit := fun w => .ok () { w with log := w.log ++ [e] }

/-- End with a fault. -/
def raise {α : Type} (f : Fault) : Prog α := fun w => .fault f w

/-- The assignment `mPrimaryWindow = v`. -/
def setPrimaryWindow (v : Option RenderWindow) : Prog Unit :=
  fun w => .ok () { w with app := { w.app with mPrimaryWindow := v } }

/-- The access `mPrimaryWindow->...`: the window pointed to, a fault on `nullptr`. -/
def derefPrimaryWindow : Prog RenderWindow :=
  fun w => match w.app.mPrimaryWindow with
    | some win => .ok win w
    | none => .fault .nullDeref w

/-- Read `mSceneManagerPlugin`. -/
def getSceneManagerPlugin : Prog (Option DynLib) :=
  fun w => .ok w.app.mSceneManagerPlugin w

/-- The `DynLib*` locations a caller passes as `loadPlugin`'s `library` argument. -/
inductive LibrarySlot where
  | mSceneManagerPlugin
  deriving DecidableEq, Repr

/-- The store `*library = v`. -/
def LibrarySlot.store (slot : LibrarySlot) (v : Option DynLib) : Prog Unit :=
  match slot with
  | .mSceneManagerPlugin =>
    fun w => .ok () { w with app := { w.app with mSceneManagerPlugin := v } }

/-- `Application::loadPlugin(pluginName, library)` (lines 212-245); `library = none` is
the null out-pointer. The result is the plugin context (`none` for `nullptr`). -/
def loadPlugin (env : Env) (pluginName : CmString) (library : Option LibrarySlot) :
    Prog (Option Nat) := do
  let name ← match resolvePluginName env.platform pluginName with
    | .error e => raise e
    | .ok n => pure n
  let loadedLibrary := env.dynLibLoad name
  emit (.dynLibLoad name loadedLibrary)
  match library with
  | some slot => slot.store loadedLibrary
  | none => pure ()
  match loadedLibrary with
  | some lib =>
    match lib.getSymbol "loadPlugin".toList with
    | some loadPluginFunc => do
      emit (.invoke lib "loadPlugin".toList)
      return loadPluginFunc.result
    | none => return none
  | none => return none

/-- `Application::unloadPlugin(library)` (lines 247-257). `library->getSymbol` is a
member access: on a null `library` it faults. -/
def unloadPlugin (library : Option DynLib) : Prog Unit := do
  match library with
  | none => raise .nullDeref
  | some lib =>
    match lib.getSymbol "unloadPlugin".toList with
    | some _ => emit (.invoke lib "unloadPlugin".toList)
    | none => pure ()
    emit (.dynLibUnload lib)

/-- The configuration `START_UP_DESC`. -/
structure START_UP_DESC where
  renderSystem : CmString
  renderer : CmString
  sceneManager : CmString
  input : CmString
  importers : List CmString
  deriving DecidableEq, Repr

/-- The loop `for(auto& importerName : desc.importers) loadPlugin(importerName);`. -/
def loadImporters (env : Env) : List CmString → Prog Unit
  | [] => pure ()
  | importerName :: rest => do
    let _ ← loadPlugin env importerName none
    loadImporters env rest

/-- `Application::startUp(desc)` (lines 54-97). -/
def startUp (env : Env) (desc : START_UP_DESC) : Prog Unit := do
  emit (.startUp .Platform)
  emit (.startUp .MemStack)
  emit (.startUp .UUIDGenerator)
  emit (.startUp .Profiler)
  emit (.startUp .ThreadPool)
  emit (.startUp .TaskScheduler)
  emit .removeWorker
  emit (.startUp .CoreThread)
  emit (.startUp .StringTable)
  emit (.startUp .DeferredCallManager)
  emit (.startUp .Time)
  emit (.startUp .DynLibManager)
  emit (.startUp .CoreObjectManager)
  emit (.startUp .GameObjectManager)
  emit (.startUp .Resources)
  emit (.startUp .GpuProgramManager)
  emit (.startUp .RenderSystemManager)
  emit (.rsInitialize desc.renderSystem)
  setPrimaryWindow (env.rsInitialize desc.renderSystem)
  emit (.startUp .Input)
  emit (.startUp .RendererManager)
  let _ ← loadPlugin env desc.renderer none
  emit (.setActive desc.renderer)
  let _ ← loadPlugin env desc.sceneManager (some .mSceneManagerPlugin)
  emit (.startUp .MeshManager)
  emit (.startUp .MaterialManager)
  emit (.startUp .FontManager)
  emit (.startUp .Importer)
  loadImporters env desc.importers
  let _ ← loadPlugin env desc.input none

/-- `Application::shutDown()` (lines 177-210). `mPrimaryWindow->destroy()` is a member
access through `mPrimaryWindow`. -/
def shutDown : Prog Unit := do
  let win ← derefPrimaryWindow
  emit (.windowDestroy win)
  setPrimaryWindow none
  emit (.shutDown .Importer)
  emit (.shutDown .FontManager)
  emit (.shutDown .MaterialManager)
  emit (.shutDown .MeshManager)
  let plugin ← getSceneManagerPlugin
  unloadPlugin plugin
  emit (.shutDown .RendererManager)
  emit (.shutDown .RenderSystemManager)
  emit (.shutDown .Input)
  emit (.shutDown .GpuProgramManager)
  emit (.shutDown .Resources)
  emit (.shutDown .GameObjectManager)
  emit (.shutDown .CoreObjectManager)
  emit (.shutDown .DynLibManager)
  emit (.shutDown .Time)
  emit (.shutDown .DeferredCallManager)
  emit (.shutDown .StringTable)
  emit (.shutDown .CoreThread)
  emit (.shutDown .TaskScheduler)
  emit (.shutDown .ThreadPool)
  emit (.shutDown .Profiler)
  emit (.shutDown .UUIDGenerator)
  emit (.shutDown .MemStack)
  emit (.shutDown .Platform)

/-- The world right after the constructor: nothing called yet. -/
def World.new : World := { app := Application.new, log := [] }

/-- The subsystems started, in the order of their `startUp` calls. -/
def startUpOrder (log : List LifeEvent) : List Subsystem :=
  log.filterMap fun e => match e with
    | .startUp s => some s
    | _ => none

/-- The subsystems stopped, in the order of their `shutDown` calls. -/
def shutDownOrder (log : List LifeEvent) : List Subsystem :=
  log.filterMap fun e => match e with
    | .shutDown s => some s
    | _ => none

/-- The world a computation ends in. -/
def Res.world {α : Type} : Res α → World
  | .ok _ w => w
  | .fault _ w => w

/-- The fault a computation ended with, if any. -/
def Res.fault? {α : Type} : Res α → Option Fault
  | .ok _ _ => none
  | .fault f _ => some f

/-- A module exporting both entry points. -/
def fullPlugin (name : CmString) (ctx : Option Nat) : DynLib :=
  { name := name
    symbols := [("loadPlugin".toList, ⟨ctx⟩), ("unloadPlugin".toList, ⟨none⟩)] }

/-- A loader that finds every module, each exporting both entry points. -/
def envAllLoad (p : Platform) : Env :=
  { platform := p
    dynLibLoad := fun n => some (fullPlugin n (some 1))
    rsInitialize := fun _ => some 7 }

/-- A loader that finds every module except the one named `missing`. -/
def envMissing (p : Platform) (missing : CmString) : Env :=
  { platform := p
    dynLibLoad := fun n => if n = missing then none else some (fullPlugin n (some 1))
    rsInitialize := fun _ => some 7 }

/-- A configuration with one render backend, one renderer, no importers. -/
def sampleDesc : START_UP_DESC :=
  { renderSystem := "CamelotD3D11RenderSystem".toList
    renderer := "BansheeForwardRenderer".toList
    sceneManager := "BansheeOctreeSM".toList
    input := "CamelotOISInput".toList
    importers := [] }

/-- The value a computation returned, if it returned. -/
def Res.value? {α : Type} : Res α → Option α
  | .ok a _ => some a
  | .fault _ _ => none

/-- The calls a computation added to the log of the world it started in. -/
def newEvents {α : Type} (r : Res α) (w : World) : List LifeEvent :=
  r.world.log.drop w.log.length

/-- The run of `startUp` on the sample configuration with every module loading. -/
def sampleStarted : Res Unit := startUp (envAllLoad .WIN32) sampleDesc World.new

/-- The run of `shutDown` after `sampleStarted`. -/
def sampleStopped : Res Unit := shutDown sampleStarted.world

/-- The run of `startUp` on the sample configuration when the scene-manager module
cannot be loaded. -/
def sampleStartedNoSceneManager : Res Unit :=
  startUp (envMissing .WIN32 "BansheeOctreeSM.dll".toList) sampleDesc World.new

/-- A piece of lifecycle code that, whenever it completes, has started exactly the
subsystems `su` and stopped exactly the subsystems `sd`, in that order. -/
def Adds {α : Type} (m : Prog α) (su sd : List Subsystem) : Prop :=
  ∀ w a w1, m w = .ok a w1 →
    startUpOrder w1.log = startUpOrder w.log ++ su
    ∧ shutDownOrder w1.log = shutDownOrder w.log ++ sd

/-! ## The frame loop: `runMainLoop`, `frameRenderingFinishedCallback`, `stopMainLoop`

The loop runs on the simulation thread, the commands it queues run on the core
thread, and `stopMainLoop` may be called from anywhere. The embedding is a step
function on a state: one step is one statement of `runMainLoop` (named by its
source line), one command run by the core thread, one call of `stopMainLoop`, or
one spurious wake-up of the condition variable; a schedule (a list of actions)
picks the interleaving. Reads and writes of the two flags take effect in schedule
order. The statements between lines 128 and 138 run with the gate mutex held, and
`frameRenderingFinishedCallback` cannot run meanwhile. Calls into collaborators
(`gCoreThread().update()`, `renderAll()`, `submitAccessors()`, ...) are recorded as
events; what they do inside, including commands of their own that they may hand to
the core thread, is not part of the embedding. -/

/-- The commands `runMainLoop` hands to `gCoreThread().queueCommand`. -/
inductive Command where
  /-- Line 115: `Application::beginCoreProfiling`. -/
  | beginCoreProfiling
  /-- Line 116: `QueryManager::_update`. -/
  | queryManagerUpdate
  /-- Line 140: `Platform::_coreUpdate`. -/
  | platformCoreUpdate
  /-- Line 142: `Application::endCoreProfiling`. -/
  | endCoreProfiling
  /-- Line 143: `Application::frameRenderingFinishedCallback`, the gate signal. -/
  | frameRenderingFinishedCallback
  deriving DecidableEq, Repr

/-- What the simulation thread does in one statement of the loop body. -/
inductive SimEvent where
  /-- Line 105: `gProfiler().beginThread("Sim")`. -/
  | beginThread
  /-- Line 107: `gCoreThread().update()`. -/
  | coreThreadUpdate
  /-- Line 108: `Platform::_update()`. -/
  | platformUpdate
  /-- Line 109: `DeferredCallManager::instance()._update()`. -/
  | deferredCallUpdate
  /-- Line 110: `RenderWindowManager::instance()._update()`. -/
  | renderWindowUpdate
  /-- Line 111: `gInput()._update()`. -/
  | inputUpdate
  /-- Line 113: `gSceneManager()._update()`. -/
  | sceneManagerUpdate
  /-- Lines 115, 116, 140, 142, 143: `gCoreThread().queueCommand(c)`. -/
  | queueCommand (c : Command)
  /-- Line 119: `mainLoopCallback()`. -/
  | mainLoopCallback
  /-- Line 121: `RendererManager::instance().getActive()->renderAll()`. -/
  | renderAll
  /-- Line 128: the gate mutex is locked. -/
  | lockMutex
  /-- Line 132: `TaskScheduler::instance().addWorker()`. -/
  | addWorker
  /-- Line 133: `CM_THREAD_WAIT` is entered (the mutex is released, the thread blocks). -/
  | wait
  /-- Line 133: `CM_THREAD_WAIT` returns (the mutex is held again). -/
  | wake
  /-- Line 134: `TaskScheduler::instance().removeWorker()`. -/
  | removeWorker
  /-- Line 137: `mIsFrameRenderingFinished = false`. -/
  | closeGate
  /-- Line 138: the scope ends, the gate mutex is unlocked. -/
  | unlockMutex
  /-- Line 141: `gCoreThread().submitAccessors()`. -/
  | submitAccessors
  /-- Line 145: `gTime().update()`. -/
  | timeUpdate
  /-- Line 147: `gProfiler().endThread()`. -/
  | endThread
  /-- Line 148: `gProfiler()._update()`. -/
  | profilerUpdate
  deriving DecidableEq, Repr

/-- An entry of the global history. -/
inductive LoopEvent where
  /-- The simulation thread did `e` in iteration `iter` (counted from 0). -/
  | sim (iter : Nat) (e : SimEvent)
  /-- The core thread ran the command `c`. -/
  | core (c : Command)
  /-- `stopMainLoop()` was called from outside the loop. -/
  | stopMainLoop
  /-- The loop condition was found false and `runMainLoop` returned. -/
  | exitLoop
  deriving DecidableEq, Repr

/-- The program points of `runMainLoop`: `Lnnn` is "about to execute line nnn";
`L133w` is "blocked inside `CM_THREAD_WAIT`", `L150` is "returned". -/
inductive Pc where
  | L101 | L103 | L105 | L107 | L108 | L109 | L110 | L111 | L113 | L115 | L116
  | L118 | L121 | L128 | L130 | L132 | L133 | L133w | L134 | L137 | L138 | L140
  | L141 | L142 | L143 | L145 | L147 | L148 | L150
  deriving DecidableEq, Repr

/-- What is outside the loop and fixed for a run: `mainLoopCallback`. `none` is the
empty callback; `some f` is a callback that, in iteration `i`, calls
`stopMainLoop()` exactly when `f i`. -/
structure LoopConfig where
  mainLoopCallback : Option (Nat → Bool)

/-- The state of the two threads and of what they share. -/
structure LoopState where
  /-- Where the simulation thread is in `runMainLoop`. -/
  pc : Pc
  mRunMainLoop : Bool
  mIsFrameRenderingFinished : Bool
  /-- `mFrameRenderingFinishedMutex` is held by the simulation thread. -/
  mutexHeld : Bool
  /-- A `CM_THREAD_NOTIFY_ONE` has reached the blocked simulation thread. -/
  notified : Bool
  /-- The core thread's command queue, oldest first. -/
  queue : List Command
  /-- The task scheduler's count of usable workers. -/
  workers : Nat
  /-- Completed iterations of the loop. -/
  iter : Nat
  /-- Everything done so far, oldest first. -/
  log : List LoopEvent
  deriving DecidableEq, Repr

/-- The state when `runMainLoop` is called on a freshly constructed `Application`
(lines 48-52: gate flag `true`, run flag `false`), with `workers` usable workers. -/
def LoopState.init (workers : Nat) : LoopState :=
  { pc := .L101
    mRunMainLoop := Application.new.mRunMainLoop
    mIsFrameRenderingFinished := Application.new.mIsFrameRenderingFinished
    mutexHeld := false
    notified := false
    queue := []
    workers := workers
    iter := 0
    log := [] }

/-- Modelled from the spec: `TaskScheduler::addWorker` (declared in
`BsTaskScheduler.h`, not among the sources): the Worker Pool slot count is
"transiently decremented/incremented"; donating a slot increments it. -/
def addWorker (workers : Nat) : Nat := workers + 1

/-- Modelled from the spec: `TaskScheduler::removeWorker` (declared in
`BsTaskScheduler.h`, not among the sources): reclaiming a slot decrements the count. -/
def removeWorker (workers : Nat) : Nat := workers - 1

/-- A statement that only calls a collaborator: record it and move on. -/
def LoopState.call (s : LoopState) (e : SimEvent) (next : Pc) : LoopState :=
  { s with pc := next, log := s.log ++ [.sim s.iter e] }

/-- The statement `gCoreThread().queueCommand(c)`. -/
def LoopState.queueCommand (s : LoopState) (c : Command) (next : Pc) : LoopState :=
  { s with pc := next, queue := s.queue ++ [c], log := s.log ++ [.sim s.iter (.queueCommand c)] }

/-- `Application::stopMainLoop()` (lines 152-156). -/
def stopMainLoop (s : LoopState) : LoopState :=
  { s with mRunMainLoop := false }

/-- `Application::frameRenderingFinishedCallback()` (lines 158-164), run by the core
thread: it needs the gate mutex (and cannot run while the simulation thread holds
it), sets the flag and notifies one waiter, which is the simulation thread when it
is blocked in `CM_THREAD_WAIT`. -/
def frameRenderingFinishedCallback (s : LoopState) : Option LoopState :=
  if s.mutexHeld then none
  else some { s with mIsFrameRenderingFinished := true, notified := decide (s.pc = .L133w) }

/-- `CM_THREAD_WAIT` returns: the mutex is held again. -/
def LoopState.wakeUp (s : LoopState) : LoopState :=
  { s with pc := .L134, mutexHeld := true, notified := false,
           log := s.log ++ [.sim s.iter .wake] }

/-- One statement of `Application::runMainLoop()` (lines 99-150) at the current
program point; `none` when the thread cannot move (blocked or returned). -/
def runMainLoopStep (cfg : LoopConfig) (s : LoopState) : Option LoopState :=
  match s.pc with
  | .L101 => some { s with pc := .L103, mRunMainLoop := true }
  | .L103 =>
    if s.mRunMainLoop then some { s with pc := .L105 }
    else some { s with pc := .L150, log := s.log ++ [.exitLoop] }
  | .L105 => some (s.call .beginThread .L107)
  | .L107 => some (s.call .coreThreadUpdate .L108)
  | .L108 => some (s.call .platformUpdate .L109)
  | .L109 => some (s.call .deferredCallUpdate .L110)
  | .L110 => some (s.call .renderWindowUpdate .L111)
  | .L111 => some (s.call .inputUpdate .L113)
  | .L113 => some (s.call .sceneManagerUpdate .L115)
  | .L115 => some (s.queueCommand .beginCoreProfiling .L116)
  | .L116 => some (s.queueCommand .queryManagerUpdate .L118)
  | .L118 =>
    match cfg.mainLoopCallback with
    | none => some { s with pc := .L121 }
    | some callback =>
      if callback s.iter then some (stopMainLoop (s.call .mainLoopCallback .L121))
      else some (s.call .mainLoopCallback .L121)
  | .L121 => some (s.call .renderAll .L128)
  | .L128 =>
    if s.mutexHeld then none
    else some { s.call .lockMutex .L130 with mutexHeld := true }
  | .L130 =>
    if s.mIsFrameRenderingFinished then some { s with pc := .L137 }
    else some { s with pc := .L132 }
  | .L132 => some { s.call .addWorker .L133 with workers := addWorker s.workers }
  | .L133 => some { s.call .wait .L133w with mutexHeld := false, notified := false }
  | .L133w => if s.notified then some s.wakeUp else none
  | .L134 => some { s.call .removeWorker .L130 with workers := removeWorker s.workers }
  | .L137 => some { s.call .closeGate .L138 with mIsFrameRenderingFinished := false }
  | .L138 => some { s.call .unlockMutex .L140 with mutexHeld := false }
  | .L140 => some (s.queueCommand .platformCoreUpdate .L141)
  | .L141 => some (s.call .submitAccessors .L142)
  | .L142 => some (s.queueCommand .endCoreProfiling .L143)
  | .L143 => some (s.queueCommand .frameRenderingFinishedCallback .L145)
  | .L145 => some (s.call .timeUpdate .L147)
  | .L147 => some (s.call .endThread .L148)
  | .L148 => some { s.call .profilerUpdate .L103 with iter := s.iter + 1 }
  | .L150 => none

/-- Modelled from the spec: the core thread (`CmCoreThread`, not among the sources)
must "dequeue and execute submitted commands in submission order". It takes the
oldest command; the gate signal runs `frameRenderingFinishedCallback`, the other
commands do not touch the loop's state. -/
def coreThreadStep (s : LoopState) : Option LoopState :=
  match s.queue with
  | [] => none
  | c :: rest =>
    let s1 := { s with queue := rest, log := s.log ++ [.core c] }
    if c = .frameRenderingFinishedCallback then frameRenderingFinishedCallback s1
    else some s1

/-- Who moves next. -/
inductive Action where
  /-- The simulation thread executes its next statement. -/
  | sim
  /-- The core thread runs the oldest queued command. -/
  | core
  /-- Some thread calls `stopMainLoop()`. -/
  | stop
  /-- The blocked simulation thread wakes up without having been notified. -/
  | spurious
  deriving DecidableEq, Repr

/-- One step of the whole system. -/
def step (cfg : LoopConfig) (a : Action) (s : LoopState) : Option LoopState :=
  match a with
  | .sim => runMainLoopStep cfg s
  | .core => coreThreadStep s
  | .stop => some { stopMainLoop s with log := s.log ++ [.stopMainLoop] }
  | .spurious => if s.pc = .L133w then some s.wakeUp else none

/-- Run a schedule; `none` when some action in it is not enabled. -/
def run (cfg : LoopConfig) : List Action → LoopState → Option LoopState
  | [], s => some s
  | a :: rest, s =>
    match step cfg a s with
    | none => none
    | some s1 => run cfg rest s1

/-- A state the system can be in after `runMainLoop` was called with `workers`
usable workers. -/
def Reachable (cfg : LoopConfig) (workers : Nat) (s : LoopState) : Prop :=
  ∃ sched, run cfg sched (LoopState.init workers) = some s

/-- The simulation thread is inside the loop body (between the condition having
been found true and the end of the last statement). -/
def Pc.inBody : Pc → Bool
  | .L101 | .L103 | .L150 => false
  | _ => true

/-- No callback installed. -/
def noCallback : LoopConfig := { mainLoopCallback := none }

/-- The history entry is the gate being closed (line 137). -/
def LoopEvent.isClose : LoopEvent → Bool
  | .sim _ .closeGate => true
  | _ => false

/-- The history entry is the gate being opened (the gate signal ran). -/
def LoopEvent.isOpen : LoopEvent → Bool
  | .core .frameRenderingFinishedCallback => true
  | _ => false

/-- The history entry is the gate signal being queued (line 143). -/
def LoopEvent.isSignalQueued : LoopEvent → Bool
  | .sim _ (.queueCommand .frameRenderingFinishedCallback) => true
  | _ => false

/-- Number of times the gate was closed. -/
def closes (log : List LoopEvent) : Nat := log.countP LoopEvent.isClose

/-- Number of times the gate signal ran. -/
def opens (log : List LoopEvent) : Nat := log.countP LoopEvent.isOpen

/-- Number of gate signals queued. -/
def signalsQueued (log : List LoopEvent) : Nat := log.countP LoopEvent.isSignalQueued

/-- The simulation thread's doings in iteration `k`, in order. -/
def simEvents (k : Nat) (log : List LoopEvent) : List SimEvent :=
  log.filterMap fun e => match e with
    | .sim i ev => if i = k then some ev else none
    | _ => none

/-- The schedule of one iteration in which the core thread has caught up: the
simulation thread runs the 23 statements from the loop condition round to it
(finding the gate open), then the core thread runs the 5 queued commands. -/
def lockstepIteration : List Action :=
  List.replicate 23 .sim ++ List.replicate 5 .core

/-- The simulation thread holds the gate mutex at this program point. -/
def Pc.holdsMutex : Pc → Bool
  | .L130 | .L132 | .L133 | .L134 | .L137 | .L138 => true
  | _ => false

/-- 1 when the current iteration has already closed the gate (line 137 done). -/
def Pc.passedGate : Pc → Nat
  | .L138 | .L140 | .L141 | .L142 | .L143 | .L145 | .L147 | .L148 => 1
  | _ => 0

/-- 1 when the current iteration has already queued its gate signal (line 143 done). -/
def Pc.signalQueued : Pc → Nat
  | .L145 | .L147 | .L148 => 1
  | _ => 0

/-- 1 when a worker slot is donated (line 132 done, line 134 not yet). -/
def Pc.donated : Pc → Nat
  | .L133 | .L133w | .L134 => 1
  | _ => 0

/-- The facts about the gate that hold in every reachable state. -/
structure GateInv (workers : Nat) (s : LoopState) : Prop where
  mutex : s.mutexHeld = s.pc.holdsMutex
  closes_eq : closes s.log = s.iter + s.pc.passedGate
  queued_eq : signalsQueued s.log = s.iter + s.pc.signalQueued
  opens_eq : signalsQueued s.log
    = opens s.log + s.queue.count .frameRenderingFinishedCallback
  flag : closes s.log = opens s.log + (if s.mIsFrameRenderingFinished then 0 else 1)
  atClose : s.pc = .L137 → s.mIsFrameRenderingFinished = true
  waitingClosed : s.pc = .L132 ∨ s.pc = .L133 → s.mIsFrameRenderingFinished = false
  notif : s.notified = true → s.pc = .L133w
  noLost : s.pc = .L133w → s.mIsFrameRenderingFinished = true → s.notified = true
  workers_eq : s.workers = workers + s.pc.donated

/-- The gate after the history `log`, from a gate that is open exactly when `g`:
closing makes it closed, the gate signal makes it open. -/
def gateAfter : Bool → List LoopEvent → Bool
  | g, [] => g
  | g, e :: rest =>
    if e.isClose then gateAfter false rest
    else if e.isOpen then gateAfter true rest
    else gateAfter g rest

/-- The history never closes a closed gate: from a gate that is open exactly when
`g`, every close finds the gate open, that is, between two closes there is an open. -/
def closesAlternate : Bool → List LoopEvent → Bool
  | _, [] => true
  | g, e :: rest =>
    if e.isClose then g && closesAlternate false rest
    else if e.isOpen then closesAlternate true rest
    else closesAlternate g rest

/-- Lines 105-113: the per-frame updates on the simulation thread. -/
def updates : List SimEvent :=
  [.beginThread, .coreThreadUpdate, .platformUpdate, .deferredCallUpdate,
   .renderWindowUpdate, .inputUpdate, .sceneManagerUpdate]

/-- Lines 115-116: the two commands queued before the gate. -/
def earlyCommands : List SimEvent :=
  [.queueCommand .beginCoreProfiling, .queueCommand .queryManagerUpdate]

/-- Lines 118-119: the callback is called when it is not empty. -/
def callbackEvents (cfg : LoopConfig) : List SimEvent :=
  match cfg.mainLoopCallback with
  | none => []
  | some _ => [.mainLoopCallback]

/-- Lines 105-128: what an iteration does before it tests the gate. -/
def beforeGate (cfg : LoopConfig) : List SimEvent :=
  updates ++ earlyCommands ++ callbackEvents cfg ++ [.renderAll, .lockMutex]

/-- Lines 132-134: one round of the wait loop. -/
def waitRound : List SimEvent := [.addWorker, .wait, .wake, .removeWorker]

/-- The wait loop of lines 130-135 going round `w` times. -/
def waitRounds : Nat → List SimEvent
  | 0 => []
  | w + 1 => waitRounds w ++ waitRound

/-- Lines 137-148: what an iteration does once it found the gate open. -/
def afterGate : List SimEvent :=
  [.closeGate, .unlockMutex, .queueCommand .platformCoreUpdate, .submitAccessors,
   .queueCommand .endCoreProfiling, .queueCommand .frameRenderingFinishedCallback,
   .timeUpdate, .endThread, .profilerUpdate]

/-- A complete iteration of the loop body whose wait loop went round `w` times. -/
def iterationTrace (cfg : LoopConfig) (w : Nat) : List SimEvent :=
  beforeGate cfg ++ waitRounds w ++ afterGate

/-- What the current iteration has done when the simulation thread stands at a
program point, `w` being the completed rounds of the wait loop. -/
def tracePrefix (cfg : LoopConfig) (w : Nat) : Pc → List SimEvent
  | .L101 | .L103 | .L105 | .L150 => []
  | .L107 => updates.take 1
  | .L108 => updates.take 2
  | .L109 => updates.take 3
  | .L110 => updates.take 4
  | .L111 => updates.take 5
  | .L113 => updates.take 6
  | .L115 => updates
  | .L116 => updates ++ earlyCommands.take 1
  | .L118 => updates ++ earlyCommands
  | .L121 => updates ++ earlyCommands ++ callbackEvents cfg
  | .L128 => updates ++ earlyCommands ++ callbackEvents cfg ++ [.renderAll]
  | .L130 | .L132 | .L137 => beforeGate cfg ++ waitRounds w
  | .L133 => beforeGate cfg ++ waitRounds w ++ waitRound.take 1
  | .L133w => beforeGate cfg ++ waitRounds w ++ waitRound.take 2
  | .L134 => beforeGate cfg ++ waitRounds w ++ waitRound.take 3
  | .L138 => beforeGate cfg ++ waitRounds w ++ afterGate.take 1
  | .L140 => beforeGate cfg ++ waitRounds w ++ afterGate.take 2
  | .L141 => beforeGate cfg ++ waitRounds w ++ afterGate.take 3
  | .L142 => beforeGate cfg ++ waitRounds w ++ afterGate.take 4
  | .L143 => beforeGate cfg ++ waitRounds w ++ afterGate.take 5
  | .L145 => beforeGate cfg ++ waitRounds w ++ afterGate.take 6
  | .L147 => beforeGate cfg ++ waitRounds w ++ afterGate.take 7
  | .L148 => beforeGate cfg ++ waitRounds w ++ afterGate.take 8

/-- The shape of the history: the current iteration is a prefix of an iteration
trace fitting the program point, the earlier iterations are complete, and no later
iteration has begun. -/
structure TraceInv (cfg : LoopConfig) (s : LoopState) : Prop where
  current : ∃ w, simEvents s.iter s.log = tracePrefix cfg w s.pc
  earlier : ∀ k, k < s.iter → ∃ w, simEvents k s.log = iterationTrace cfg w
  later : ∀ k, s.iter < k → simEvents k s.log = []

/-- The worker-pool calls among what the simulation thread did, in order. -/
def workerCalls (l : List SimEvent) : List SimEvent :=
  l.filter fun e => decide (e = .addWorker) || decide (e = .removeWorker)

/-- `w` donations, each reclaimed before the next: add, remove, add, remove, ... -/
def donateReclaim : Nat → List SimEvent
  | 0 => []
  | w + 1 => donateReclaim w ++ [.addWorker, .removeWorker]

/-- A schedule in which the second iteration's wait is woken twice, the first time
spuriously: line 101 and the first iteration (24 statements), the second iteration
up to the wait (16 statements: lines 103-128, then 130, 132, 133), a spurious
wake-up, lines 134, 130, 132, 133 again, the core thread running the first frame's
five commands (the last one opens the gate and notifies), and the rest of the
iteration (wake, lines 134, 130, 137-148). -/
def spuriousWakeSchedule : List Action :=
  List.replicate 24 .sim ++ List.replicate 16 .sim ++ [.spurious]
    ++ List.replicate 4 .sim ++ List.replicate 5 .core ++ List.replicate 12 .sim

/-- The state `spuriousWakeSchedule` ends in. -/
def spuriousWakeState : LoopState :=
  (run noCallback spuriousWakeSchedule (LoopState.init 2)).getD (LoopState.init 2)

/-- The schedule of three iterations in lockstep, after line 101. -/
def threeIterations : List Action :=
  [.sim] ++ lockstepIteration ++ lockstepIteration ++ lockstepIteration

/-- The state `threeIterations` ends in. -/
def threeIterationsState : LoopState :=
  (run noCallback threeIterations (LoopState.init 2)).getD (LoopState.init 2)

/-- The state the simulation thread alone reaches at line 137 of the first
iteration (15 statements). -/
def firstCloseState : LoopState :=
  (run noCallback (List.replicate 15 .sim) (LoopState.init 2)).getD (LoopState.init 2)

/-- The schedule for C7: the simulation thread alone runs line 101, the whole first
iteration (23 statements) and the second iteration up to line 118 (10 statements),
while the core thread has not run anything yet. -/
def earlyQueueSchedule : List Action := List.replicate 34 .sim

/-- The state `earlyQueueSchedule` ends in. -/
def earlyQueueState : LoopState :=
  (run noCallback earlyQueueSchedule (LoopState.init 2)).getD (LoopState.init 2)

/-- A bound on the statements the simulation thread still has to run before
`runMainLoop` returns once the loop was told to stop, by program point and gate
flag (two per statement, so that a queued command never outweighs a statement). -/
def Pc.weight : Pc → Bool → Nat
  | .L150, _ => 0
  | .L103, _ => 2
  | .L148, _ => 4
  | .L147, _ => 6
  | .L145, _ => 8
  | .L143, _ => 10
  | .L142, _ => 12
  | .L141, _ => 14
  | .L140, _ => 16
  | .L138, _ => 18
  | .L137, _ => 20
  | .L130, true => 22
  | .L134, true => 24
  | .L133w, true => 26
  | .L133w, false => 28
  | .L133, _ => 30
  | .L132, _ => 32
  | .L130, false => 34
  | .L134, false => 36
  | .L128, _ => 38
  | .L121, _ => 40
  | .L118, _ => 42
  | .L116, _ => 44
  | .L115, _ => 46
  | .L113, _ => 48
  | .L111, _ => 50
  | .L110, _ => 52
  | .L109, _ => 54
  | .L108, _ => 56
  | .L107, _ => 58
  | .L105, _ => 60
  | .L101, _ => 62

/-- The measure that decreases along the way out of a stopped loop: the weight of
the program point plus the commands the core thread has yet to run. -/
def LoopState.effort (s : LoopState) : Nat :=
  s.pc.weight s.mIsFrameRenderingFinished + s.queue.length

/-- The loop has been told to stop: the run flag is false and `runMainLoop` is past
line 101 (the only statement that sets it). -/
def Stopping (s : LoopState) : Prop := s.mRunMainLoop = false ∧ s.pc ≠ .L101

/-- A callback that calls `stopMainLoop()` in the first iteration. -/
def stopInFirstIteration : LoopConfig := { mainLoopCallback := some fun i => i == 0 }

/-- The state right after that callback returned in the first iteration (line 101,
the loop condition, and lines 105-119: 12 statements). -/
def callbackStopState : LoopState :=
  (run stopInFirstIteration (List.replicate 12 .sim) (LoopState.init 2)).getD (LoopState.init 2)

/-- A piece of lifecycle code that leaves `mSceneManagerPlugin` as it was. -/
def KeepsPlugin {α : Type} (m : Prog α) : Prop :=
  ∀ w a w1, m w = .ok a w1 → w1.app.mSceneManagerPlugin = w.app.mSceneManagerPlugin

/-- A piece of lifecycle code that, whenever it completes, leaves `v` in
`mSceneManagerPlugin`. -/
def SetsPlugin {α : Type} (m : Prog α) (v : Option DynLib) : Prop :=
  ∀ w a w1, m w = .ok a w1 → w1.app.mSceneManagerPlugin = v

/-- The state right before that callback is called in the first iteration (line
101, the loop condition, and lines 105-116: 11 statements). -/
def beforeCallbackState : LoopState :=
  (run stopInFirstIteration (List.replicate 11 .sim) (LoopState.init 2)).getD (LoopState.init 2)

/-! # Theorems -/

/-! ## Lifecycle: theorems -/

theorem sizeSub_of_le (a b : Nat) (hb : b ≤ a) (ha : a < SIZE_T_MOD) :
    sizeSub a b = a - b := by
  unfold sizeSub
  have hb2 : b % SIZE_T_MOD = b := Nat.mod_eq_of_lt (by omega)
  rw [hb2]
  have h1 : a + SIZE_T_MOD - b = (a - b) + SIZE_T_MOD := by omega
  rw [h1, Nat.add_mod_right]
  exact Nat.mod_eq_of_lt (by omega)

theorem sizeSub_of_lt (a b : Nat) (hab : a < b) (hb : b < SIZE_T_MOD) :
    a < sizeSub a b := by
  unfold sizeSub
  have hb2 : b % SIZE_T_MOD = b := Nat.mod_eq_of_lt hb
  rw [hb2]
  have h1 : a + SIZE_T_MOD - b < SIZE_T_MOD := by omega
  rw [Nat.mod_eq_of_lt h1]
  omega

/-- The tail `substr` yields for a name at least as long as the suffix is the
name's last `k` characters, so the comparison is the ends-with test. -/
theorem substr_tail (name sfx : CmString) (hlen : sfx.length ≤ name.length)
    (hsz : name.length < SIZE_T_MOD) :
    substr name (sizeSub name.length sfx.length) sfx.length
      = .ok (name.drop (name.length - sfx.length)) := by
  rw [sizeSub_of_le _ _ hlen hsz]
  unfold substr
  have h1 : ¬ (name.length - sfx.length > name.length) := by omega
  rw [if_neg h1]
  congr 1
  apply List.take_of_length_le
  rw [List.length_drop]
  omega

/-- The three `#if` branches of `resolvePluginName` are one computation in the
platform suffix. -/
theorem resolvePluginName_eq (p : Platform) (name : CmString) :
    resolvePluginName p name =
      appendIfMissing name (pluginSuffix p).length (pluginSuffix p) := by
  cases p <;> rfl

/-- For names at least as long as the platform suffix the resolution is the one
described: unchanged when the name ends with the suffix, suffix appended otherwise. -/
theorem resolvePluginName_of_long (p : Platform) (name : CmString)
    (hlen : (pluginSuffix p).length ≤ name.length) (hsz : name.length < SIZE_T_MOD) :
    resolvePluginName p name
      = .ok (if pluginSuffix p <:+ name then name else name ++ pluginSuffix p) := by
  rw [resolvePluginName_eq]
  unfold appendIfMissing
  rw [substr_tail name (pluginSuffix p) hlen hsz]
  have hsuf : (pluginSuffix p <:+ name)
      ↔ name.drop (name.length - (pluginSuffix p).length) = pluginSuffix p := by
    rw [List.suffix_iff_eq_drop]
    exact eq_comm
  by_cases h : name.drop (name.length - (pluginSuffix p).length) = pluginSuffix p
  · simp [h, hsuf.mpr h]
  · have h2 : ¬ (pluginSuffix p <:+ name) := fun hh => h (hsuf.mp hh)
    simp [h, h2]

/-- A name shorter than the platform suffix makes `substr` throw
`std::out_of_range`: `name.length() - k` wraps around to a position past the end. -/
theorem resolvePluginName_of_short (p : Platform) (name : CmString)
    (hlen : name.length < (pluginSuffix p).length) :
    resolvePluginName p name = .error .outOfRange := by
  have h6 : (pluginSuffix p).length ≤ 6 := by cases p <;> decide
  have hs : (pluginSuffix p).length < SIZE_T_MOD := by
    have : 6 < SIZE_T_MOD := by unfold SIZE_T_MOD; norm_num
    omega
  have hpos := sizeSub_of_lt name.length (pluginSuffix p).length hlen hs
  rw [resolvePluginName_eq]
  unfold appendIfMissing substr
  rw [if_pos hpos]

theorem adds_bind {α β : Type} {m : Prog α} {f : α → Prog β} {su1 sd1 su2 sd2 : List Subsystem}
    (h1 : Adds m su1 sd1) (h2 : ∀ a, Adds (f a) su2 sd2) :
    Adds (m >>= f) (su1 ++ su2) (sd1 ++ sd2) := by
  intro w b w2 h
  change Prog.bind m f w = _ at h
  unfold Prog.bind at h
  cases hm : m w with
  | fault e w1 => simp [hm] at h
  | ok a w1 =>
    simp only [hm] at h
    obtain ⟨ha, hb⟩ := h1 w a w1 hm
    obtain ⟨hc, hd⟩ := h2 a w1 b w2 h
    rw [hc, hd, ha, hb]
    simp

theorem adds_pure {α : Type} (a : α) : Adds (pure a : Prog α) [] [] := by
  intro w b w1 h
  change Res.ok a w = _ at h
  cases h
  simp

theorem adds_startUp (s : Subsystem) : Adds (emit (.startUp s)) [s] [] := by
  intro w b w1 h
  simp only [emit, Res.ok.injEq] at h
  obtain ⟨-, rfl⟩ := h
  simp [startUpOrder, shutDownOrder, List.filterMap_append]

theorem adds_shutDown (s : Subsystem) : Adds (emit (.shutDown s)) [] [s] := by
  intro w b w1 h
  simp only [emit, Res.ok.injEq] at h
  obtain ⟨-, rfl⟩ := h
  simp [startUpOrder, shutDownOrder, List.filterMap_append]

theorem adds_emit_other (e : LifeEvent) (h1 : ∀ s, e ≠ .startUp s) (h2 : ∀ s, e ≠ .shutDown s) :
    Adds (emit e) [] [] := by
  intro w b w1 h
  simp only [emit, Res.ok.injEq] at h
  obtain ⟨-, rfl⟩ := h
  cases e <;> simp_all [startUpOrder, shutDownOrder, List.filterMap_append]

theorem adds_raise {α : Type} (f : Fault) (su sd : List Subsystem) :
    Adds (raise f : Prog α) su sd := by
  intro w b w1 h
  simp [raise] at h

theorem adds_setPrimaryWindow (v : Option RenderWindow) : Adds (setPrimaryWindow v) [] [] := by
  intro w b w1 h
  simp only [setPrimaryWindow, Res.ok.injEq] at h
  obtain ⟨-, rfl⟩ := h
  simp

theorem adds_derefPrimaryWindow : Adds derefPrimaryWindow [] [] := by
  intro w b w1 h
  unfold derefPrimaryWindow at h
  split at h
  · simp only [Res.ok.injEq] at h
    obtain ⟨-, rfl⟩ := h
    simp
  · simp at h

theorem adds_getSceneManagerPlugin : Adds getSceneManagerPlugin [] [] := by
  intro w b w1 h
  simp only [getSceneManagerPlugin, Res.ok.injEq] at h
  obtain ⟨-, rfl⟩ := h
  simp

theorem adds_store (slot : LibrarySlot) (v : Option DynLib) : Adds (slot.store v) [] [] := by
  intro w b w1 h
  cases slot
  simp only [LibrarySlot.store, Res.ok.injEq] at h
  obtain ⟨-, rfl⟩ := h
  simp

theorem adds_loadPlugin (env : Env) (pluginName : CmString) (library : Option LibrarySlot) :
    Adds (loadPlugin env pluginName library) [] [] := by
  intro w b w1 h
  unfold loadPlugin at h
  generalize "loadPlugin".toList = sym at h
  cases hres : resolvePluginName env.platform pluginName with
  | error e => simp [hres, raise, bind, Prog.bind] at h
  | ok n =>
    cases hload : env.dynLibLoad n with
    | none =>
      cases library <;>
        simp [hres, hload, emit, bind, Prog.bind, pure, LibrarySlot.store] at h
      all_goals
        obtain ⟨-, rfl⟩ := h
        simp [startUpOrder, shutDownOrder, List.filterMap_append]
    | some lib =>
      cases hsym : lib.getSymbol sym <;> cases library <;>
        simp [hres, hload, hsym, emit, bind, Prog.bind, pure, LibrarySlot.store] at h
      all_goals
        obtain ⟨-, rfl⟩ := h
        simp [startUpOrder, shutDownOrder, List.filterMap_append]

theorem adds_unloadPlugin (library : Option DynLib) : Adds (unloadPlugin library) [] [] := by
  intro w b w1 h
  unfold unloadPlugin at h
  generalize "unloadPlugin".toList = sym at h
  cases library with
  | none => simp [raise] at h
  | some lib =>
    cases hsym : lib.getSymbol sym <;>
      simp [hsym, emit, bind, Prog.bind, pure] at h
    all_goals
      obtain ⟨-, rfl⟩ := h
      simp [startUpOrder, shutDownOrder, List.filterMap_append]

theorem adds_loadImporters (env : Env) : ∀ l, Adds (loadImporters env l) [] [] := by
  intro l
  induction l with
  | nil => exact adds_pure _
  | cons n rest ih =>
    unfold loadImporters
    have h := adds_bind (adds_loadPlugin env n none) (fun _ : Option Nat => ih)
    exact h

theorem adds_startUp_then {β : Type} {f : Unit → Prog β} {s : Subsystem}
    {su sd : List Subsystem} (h : ∀ a, Adds (f a) su sd) :
    Adds (emit (.startUp s) >>= f) (s :: su) sd :=
  adds_bind (adds_startUp s) h

theorem adds_shutDown_then {β : Type} {f : Unit → Prog β} {s : Subsystem}
    {su sd : List Subsystem} (h : ∀ a, Adds (f a) su sd) :
    Adds (emit (.shutDown s) >>= f) su (s :: sd) :=
  adds_bind (adds_shutDown s) h

theorem adds_skip {α β : Type} {m : Prog α} {f : α → Prog β} {su sd : List Subsystem}
    (h1 : Adds m [] []) (h2 : ∀ a, Adds (f a) su sd) : Adds (m >>= f) su sd :=
  adds_bind h1 h2

/-- Whenever `startUp` completes it has started the 22 subsystems in this order,
whatever the configuration, the platform and the library loader. -/
theorem adds_startUp_all (env : Env) (desc : START_UP_DESC) :
    Adds (startUp env desc)
      [.Platform, .MemStack, .UUIDGenerator, .Profiler, .ThreadPool, .TaskScheduler,
       .CoreThread, .StringTable, .DeferredCallManager, .Time, .DynLibManager,
       .CoreObjectManager, .GameObjectManager, .Resources, .GpuProgramManager,
       .RenderSystemManager, .Input, .RendererManager, .MeshManager, .MaterialManager,
       .FontManager, .Importer] [] := by
  unfold startUp
  repeat
    with_reducible first
    | refine adds_startUp_then fun _ => ?_
    | refine adds_skip (adds_emit_other _ (fun _ => by simp) (fun _ => by simp)) fun _ => ?_
    | refine adds_skip (adds_setPrimaryWindow _) fun _ => ?_
    | refine adds_skip (adds_loadPlugin _ _ _) fun _ => ?_
    | refine adds_skip (adds_loadImporters _ _) fun _ => ?_
  exact adds_pure _

/-- Whenever `shutDown` completes it has stopped the 22 subsystems in this order. -/
theorem adds_shutDown_all :
    Adds shutDown []
      [.Importer, .FontManager, .MaterialManager, .MeshManager, .RendererManager,
       .RenderSystemManager, .Input, .GpuProgramManager, .Resources, .GameObjectManager,
       .CoreObjectManager, .DynLibManager, .Time, .DeferredCallManager, .StringTable,
       .CoreThread, .TaskScheduler, .ThreadPool, .Profiler, .UUIDGenerator, .MemStack,
       .Platform] := by
  unfold shutDown
  repeat
    with_reducible first
    | refine adds_shutDown_then fun _ => ?_
    | refine adds_skip (adds_emit_other _ (fun _ => by simp) (fun _ => by simp)) fun _ => ?_
    | refine adds_skip (adds_setPrimaryWindow _) fun _ => ?_
    | refine adds_skip adds_derefPrimaryWindow fun _ => ?_
    | refine adds_skip adds_getSceneManagerPlugin fun _ => ?_
    | refine adds_skip (adds_unloadPlugin _) fun _ => ?_
  exact adds_shutDown _

theorem keeps_then_keeps {α β : Type} {m : Prog α} {f : α → Prog β}
    (h1 : KeepsPlugin m) (h2 : ∀ a, KeepsPlugin (f a)) : KeepsPlugin (m >>= f) := by
  intro w b w2 h
  change Prog.bind m f w = _ at h
  unfold Prog.bind at h
  cases hm : m w with
  | fault e w1 => simp [hm] at h
  | ok a w1 =>
    simp only [hm] at h
    rw [h2 a w1 b w2 h, h1 w a w1 hm]

theorem keeps_then_sets {α β : Type} {m : Prog α} {f : α → Prog β} {v : Option DynLib}
    (_h1 : KeepsPlugin m) (h2 : ∀ a, SetsPlugin (f a) v) : SetsPlugin (m >>= f) v := by
  intro w b w2 h
  change Prog.bind m f w = _ at h
  unfold Prog.bind at h
  cases hm : m w with
  | fault e w1 => simp [hm] at h
  | ok a w1 =>
    simp only [hm] at h
    exact h2 a w1 b w2 h

theorem sets_then_keeps {α β : Type} {m : Prog α} {f : α → Prog β} {v : Option DynLib}
    (h1 : SetsPlugin m v) (h2 : ∀ a, KeepsPlugin (f a)) : SetsPlugin (m >>= f) v := by
  intro w b w2 h
  change Prog.bind m f w = _ at h
  unfold Prog.bind at h
  cases hm : m w with
  | fault e w1 => simp [hm] at h
  | ok a w1 =>
    simp only [hm] at h
    rw [h2 a w1 b w2 h, h1 w a w1 hm]

theorem keeps_pure {α : Type} (a : α) : KeepsPlugin (pure a : Prog α) := by
  intro w b w1 h
  change Res.ok a w = _ at h
  cases h
  rfl

theorem keeps_emit (e : LifeEvent) : KeepsPlugin (emit e) := by
  intro w b w1 h
  simp only [emit, Res.ok.injEq] at h
  obtain ⟨-, rfl⟩ := h
  rfl

theorem keeps_setPrimaryWindow (v : Option RenderWindow) : KeepsPlugin (setPrimaryWindow v) := by
  intro w b w1 h
  simp only [setPrimaryWindow, Res.ok.injEq] at h
  obtain ⟨-, rfl⟩ := h
  rfl

theorem keeps_loadPlugin (env : Env) (pluginName : CmString) :
    KeepsPlugin (loadPlugin env pluginName none) := by
  intro w b w1 h
  unfold loadPlugin at h
  generalize "loadPlugin".toList = sym at h
  cases hres : resolvePluginName env.platform pluginName with
  | error e => simp [hres, raise, bind, Prog.bind] at h
  | ok n =>
    cases hload : env.dynLibLoad n with
    | none =>
      simp [hres, hload, emit, bind, Prog.bind, pure] at h
      obtain ⟨-, rfl⟩ := h
      rfl
    | some lib =>
      cases hsym : lib.getSymbol sym <;>
        simp [hres, hload, hsym, emit, bind, Prog.bind, pure] at h
      all_goals
        obtain ⟨-, rfl⟩ := h
        rfl

theorem sets_loadPlugin (env : Env) (pluginName n : CmString)
    (hres : resolvePluginName env.platform pluginName = .ok n) :
    SetsPlugin (loadPlugin env pluginName (some .mSceneManagerPlugin)) (env.dynLibLoad n) := by
  intro w b w1 h
  unfold loadPlugin at h
  generalize "loadPlugin".toList = sym at h
  cases hload : env.dynLibLoad n with
  | none =>
    simp [hres, hload, emit, bind, Prog.bind, pure, LibrarySlot.store] at h
    obtain ⟨-, rfl⟩ := h
    rfl
  | some lib =>
    cases hsym : lib.getSymbol sym <;>
      simp [hres, hload, hsym, emit, bind, Prog.bind, pure, LibrarySlot.store] at h
    all_goals
      obtain ⟨-, rfl⟩ := h
      rfl

theorem keeps_loadImporters (env : Env) : ∀ l, KeepsPlugin (loadImporters env l) := by
  intro l
  induction l with
  | nil => exact keeps_pure _
  | cons n rest ih =>
    unfold loadImporters
    exact keeps_then_keeps (keeps_loadPlugin env n) fun _ => ih

/-- Whenever `startUp` completes, `mSceneManagerPlugin` holds what the library
loader returned for the resolved scene-manager module name. -/
theorem sets_startUp (env : Env) (desc : START_UP_DESC) (n : CmString)
    (hres : resolvePluginName env.platform desc.sceneManager = .ok n) :
    SetsPlugin (startUp env desc) (env.dynLibLoad n) := by
  unfold startUp
  repeat
    with_reducible first
    | refine keeps_then_sets (keeps_emit _) fun _ => ?_
    | refine keeps_then_sets (keeps_setPrimaryWindow _) fun _ => ?_
    | refine keeps_then_sets (keeps_loadPlugin _ _) fun _ => ?_
  refine sets_then_keeps (sets_loadPlugin env _ n hres) fun _ => ?_
  repeat
    with_reducible first
    | refine keeps_then_keeps (keeps_emit _) fun _ => ?_
    | refine keeps_then_keeps (keeps_loadImporters _ _) fun _ => ?_
    | refine keeps_then_keeps (keeps_loadPlugin _ _) fun _ => ?_
  exact keeps_pure _
/-- With `mSceneManagerPlugin` null, `shutDown` ends with a null dereference (at
`mPrimaryWindow->destroy()` if there is no window, otherwise in `unloadPlugin`),
having stopped at most the first four subsystems. -/
theorem shutDown_faults_of_null_plugin (w : World) (h : w.app.mSceneManagerPlugin = none) :
    (shutDown w).fault? = some .nullDeref
    ∧ ∀ s, s ∈ shutDownOrder (newEvents (shutDown w) w) →
        s = .Importer ∨ s = .FontManager ∨ s = .MaterialManager ∨ s = .MeshManager := by
  obtain ⟨⟨win, f, r, plugin⟩, lg⟩ := w
  simp only at h
  subst h
  cases win with
  | none =>
    simp [shutDown, derefPrimaryWindow, bind, Prog.bind, Res.fault?, newEvents, Res.world,
      shutDownOrder]
  | some x =>
    simp [shutDown, derefPrimaryWindow, setPrimaryWindow, getSceneManagerPlugin,
      unloadPlugin, raise, emit, bind, Prog.bind, Res.fault?, newEvents, Res.world,
      shutDownOrder]

/-! ## Frame loop: invariants -/

theorem gateInv_init (workers : Nat) : GateInv workers (LoopState.init workers) := by
  constructor <;> simp [LoopState.init, Application.new, closes, opens, signalsQueued,
    Pc.holdsMutex, Pc.passedGate, Pc.signalQueued, Pc.donated]

set_option maxHeartbeats 4000000 in
theorem gateInv_step_sim {cfg : LoopConfig} {workers : Nat} {s s1 : LoopState}
    (h : GateInv workers s) (hs : runMainLoopStep cfg s = some s1) : GateInv workers s1 := by
  obtain ⟨pc, rn, fin, mh, nt, q, wk, it, lg⟩ := s
  obtain ⟨h1, h2, h3, h4, h5, h6, h7, h8, h9, h10⟩ := h
  simp only at h1 h2 h3 h4 h5 h6 h7 h8 h9 h10
  cases pc <;>
    simp [runMainLoopStep, LoopState.call, LoopState.queueCommand, stopMainLoop,
      LoopState.wakeUp, addWorker, removeWorker] at hs
  all_goals (try split at hs)
  all_goals (try split at hs)
  all_goals (try simp only [Option.some.injEq] at hs)
  all_goals (try (obtain ⟨_, hs⟩ := hs))
  all_goals (try subst hs)
  all_goals
    constructor <;>
      (try simp_all [closes, opens, signalsQueued, Pc.holdsMutex, Pc.passedGate,
        Pc.signalQueued, Pc.donated, LoopEvent.isClose, LoopEvent.isOpen,
        LoopEvent.isSignalQueued, List.countP_append]) <;>
      (try omega)

theorem gateInv_step_core {workers : Nat} {s s1 : LoopState}
    (h : GateInv workers s) (hs : coreThreadStep s = some s1) : GateInv workers s1 := by
  obtain ⟨pc, rn, fin, mh, nt, q, wk, it, lg⟩ := s
  obtain ⟨h1, h2, h3, h4, h5, h6, h7, h8, h9, h10⟩ := h
  simp only at h1 h2 h3 h4 h5 h6 h7 h8 h9 h10
  cases q with
  | nil => simp [coreThreadStep] at hs
  | cons c rest =>
    have hle : Pc.signalQueued pc ≤ Pc.passedGate pc := by cases pc <;> decide
    cases c <;> simp [coreThreadStep, frameRenderingFinishedCallback] at hs
    all_goals (try (obtain ⟨hm, hs⟩ := hs))
    all_goals (try subst hs)
    all_goals
      constructor <;>
        (try simp_all [closes, opens, signalsQueued, LoopEvent.isClose, LoopEvent.isOpen,
          LoopEvent.isSignalQueued, List.countP_append]) <;>
        (try omega)
    · cases fin
      · rfl
      · simp at h5
        omega
    · constructor <;>
        · rintro rfl
          simp [Pc.holdsMutex] at h1

theorem gateInv_step {cfg : LoopConfig} {workers : Nat} {a : Action} {s s1 : LoopState}
    (h : GateInv workers s) (hs : step cfg a s = some s1) : GateInv workers s1 := by
  cases a with
  | sim => exact gateInv_step_sim h hs
  | core => exact gateInv_step_core h hs
  | stop =>
    simp [step, stopMainLoop] at hs
    subst hs
    obtain ⟨h1, h2, h3, h4, h5, h6, h7, h8, h9, h10⟩ := h
    constructor <;>
      simp_all [closes, opens, signalsQueued, LoopEvent.isClose, LoopEvent.isOpen,
        LoopEvent.isSignalQueued, List.countP_append]
  | spurious =>
    simp [step, LoopState.wakeUp] at hs
    obtain ⟨hpc, hs⟩ := hs
    subst hs
    obtain ⟨h1, h2, h3, h4, h5, h6, h7, h8, h9, h10⟩ := h
    constructor <;>
      simp_all [closes, opens, signalsQueued, LoopEvent.isClose, LoopEvent.isOpen,
        LoopEvent.isSignalQueued, List.countP_append, Pc.holdsMutex, Pc.passedGate,
        Pc.signalQueued, Pc.donated]

theorem gateInv_run {cfg : LoopConfig} {workers : Nat} (sched : List Action) :
    ∀ {s s1 : LoopState}, GateInv workers s → run cfg sched s = some s1 → GateInv workers s1 := by
  induction sched with
  | nil =>
    intro s s1 h hr
    simp [run] at hr
    subst hr
    exact h
  | cons a rest ih =>
    intro s s1 h hr
    simp only [run] at hr
    cases hst : step cfg a s with
    | none => simp [hst] at hr
    | some s2 =>
      rw [hst] at hr
      exact ih (gateInv_step h hst) hr

theorem Reachable.gateInv {cfg : LoopConfig} {workers : Nat} {s : LoopState}
    (h : Reachable cfg workers s) : GateInv workers s := by
  obtain ⟨sched, hr⟩ := h
  exact gateInv_run sched (gateInv_init workers) hr

theorem run_append (cfg : LoopConfig) (l1 l2 : List Action) :
    ∀ s, run cfg (l1 ++ l2) s = (run cfg l1 s).bind (run cfg l2) := by
  induction l1 with
  | nil => intro s; rfl
  | cons a rest ih =>
    intro s
    simp only [List.cons_append, run]
    cases step cfg a s with
    | none => rfl
    | some s2 => exact ih s2

theorem Reachable.step {cfg : LoopConfig} {workers : Nat} {a : Action} {s s1 : LoopState}
    (h : Reachable cfg workers s) (hs : BansheeEngine.step cfg a s = some s1) :
    Reachable cfg workers s1 := by
  obtain ⟨sched, hr⟩ := h
  refine ⟨sched ++ [a], ?_⟩
  rw [run_append, hr]
  simp [run, hs]

theorem Reachable.run {cfg : LoopConfig} {workers : Nat} (sched : List Action) :
    ∀ {s s1 : LoopState}, Reachable cfg workers s → BansheeEngine.run cfg sched s = some s1 →
      Reachable cfg workers s1 := by
  induction sched with
  | nil =>
    intro s s1 h hr
    simp [BansheeEngine.run] at hr
    subst hr
    exact h
  | cons a rest ih =>
    intro s s1 h hr
    simp only [BansheeEngine.run] at hr
    cases hst : BansheeEngine.step cfg a s with
    | none => simp [hst] at hr
    | some s2 =>
      rw [hst] at hr
      exact ih (h.step hst) hr

/-- Induction over the reachable states. -/
theorem reachable_induction {cfg : LoopConfig} {workers : Nat} (P : LoopState → Prop)
    (h0 : P (LoopState.init workers))
    (hstep : ∀ a s s1, Reachable cfg workers s → P s → step cfg a s = some s1 → P s1) :
    ∀ s, Reachable cfg workers s → P s := by
  have key : ∀ sched : List Action, ∀ s, Reachable cfg workers s → P s →
      ∀ s1, run cfg sched s = some s1 → P s1 := by
    intro sched
    induction sched with
    | nil =>
      intro s _ hp s1 hr
      simp [run] at hr
      subst hr
      exact hp
    | cons a rest ih =>
      intro s hreach hp s1 hr
      simp only [run] at hr
      cases hst : step cfg a s with
      | none => simp [hst] at hr
      | some s2 =>
        rw [hst] at hr
        exact ih s2 (hreach.step hst) (hstep a s s2 hreach hp hst) s1 hr
  intro s hs
  obtain ⟨sched, hr⟩ := hs
  exact key sched _ ⟨[], rfl⟩ h0 s hr

theorem gateAfter_append (l : List LoopEvent) (e : LoopEvent) :
    ∀ g, gateAfter g (l ++ [e])
      = if e.isClose then false else if e.isOpen then true else gateAfter g l := by
  induction l with
  | nil => intro g; simp [gateAfter]
  | cons x rest ih =>
    intro g
    rw [List.cons_append]
    cases hx : x.isClose <;> cases hy : x.isOpen <;> simp [gateAfter, hx, hy, ih]

theorem closesAlternate_append (l : List LoopEvent) (e : LoopEvent) :
    ∀ g, closesAlternate g (l ++ [e])
      = (closesAlternate g l && (!e.isClose || gateAfter g l)) := by
  induction l with
  | nil => intro g; cases g <;> cases h1 : e.isClose <;> cases h2 : e.isOpen <;>
      simp [closesAlternate, gateAfter, h1, h2]
  | cons x rest ih =>
    intro g
    rw [List.cons_append]
    cases hx : x.isClose <;> cases hy : x.isOpen <;>
      simp [closesAlternate, gateAfter, hx, hy, ih, Bool.and_assoc]

/-- What one step does to the gate flag and to the history: nothing to the flag
(adding at most an entry that neither closes nor opens the gate), or it is line 137
run by the simulation thread under the mutex (a close), or it is the gate signal
run by the core thread while the mutex is free (an open). -/
theorem step_gate_effect {cfg : LoopConfig} {a : Action} {s s1 : LoopState}
    (hs : step cfg a s = some s1) :
    (s1.mIsFrameRenderingFinished = s.mIsFrameRenderingFinished
        ∧ (s1.log = s.log ∨ ∃ e, s1.log = s.log ++ [e] ∧ e.isClose = false ∧ e.isOpen = false))
    ∨ (a = .sim ∧ s.pc = .L137 ∧ s1.mIsFrameRenderingFinished = false
        ∧ s1.log = s.log ++ [.sim s.iter .closeGate])
    ∨ (a = .core ∧ s.mutexHeld = false ∧ s1.mIsFrameRenderingFinished = true
        ∧ s1.log = s.log ++ [.core .frameRenderingFinishedCallback]) := by
  obtain ⟨pc, rn, fin, mh, nt, q, wk, it, lg⟩ := s
  cases a with
  | sim =>
    cases pc <;>
      simp [step, runMainLoopStep, LoopState.call, LoopState.queueCommand, stopMainLoop,
        LoopState.wakeUp] at hs
    all_goals (try split at hs)
    all_goals (try split at hs)
    all_goals (try simp only [Option.some.injEq] at hs)
    all_goals (try (obtain ⟨_, hs⟩ := hs))
    all_goals (try subst hs)
    all_goals simp [LoopEvent.isClose, LoopEvent.isOpen]
  | core =>
    cases q with
    | nil => simp [step, coreThreadStep] at hs
    | cons c rest =>
      cases c <;> simp [step, coreThreadStep, frameRenderingFinishedCallback] at hs
      all_goals (try (obtain ⟨_, hs⟩ := hs))
      all_goals (try subst hs)
      all_goals simp_all [LoopEvent.isClose, LoopEvent.isOpen]
  | stop =>
    simp [step, stopMainLoop] at hs
    subst hs
    simp [LoopEvent.isClose, LoopEvent.isOpen]
  | spurious =>
    simp [step, LoopState.wakeUp] at hs
    obtain ⟨_, hs⟩ := hs
    subst hs
    simp [LoopEvent.isClose, LoopEvent.isOpen]

/-- In every reachable state the history never closes a closed gate, and the flag
is the gate the history leaves. -/
theorem reachable_closesAlternate {cfg : LoopConfig} {workers : Nat} :
    ∀ s, Reachable cfg workers s →
      closesAlternate true s.log = true ∧ gateAfter true s.log = s.mIsFrameRenderingFinished := by
  apply reachable_induction
  · simp [LoopState.init, closesAlternate, gateAfter, Application.new]
  · intro a s s1 hreach ⟨h1, h2⟩ hs
    have hinv := hreach.gateInv
    rcases step_gate_effect hs with ⟨hf, hl | ⟨e, hl, hc, ho⟩⟩ | ⟨-, hpc, hf, hl⟩ | ⟨-, -, hf, hl⟩
    · rw [hl, hf]; exact ⟨h1, h2⟩
    · rw [hl, hf, closesAlternate_append, gateAfter_append]
      simp [h1, h2, hc, ho]
    · rw [hl, hf, closesAlternate_append, gateAfter_append]
      simp [h1, h2, LoopEvent.isClose, hinv.atClose hpc]
    · rw [hl, hf, closesAlternate_append, gateAfter_append]
      simp [h1, LoopEvent.isClose, LoopEvent.isOpen]

theorem simEvents_append (k : Nat) (l1 l2 : List LoopEvent) :
    simEvents k (l1 ++ l2) = simEvents k l1 ++ simEvents k l2 := by
  simp [simEvents, List.filterMap_append]

theorem simEvents_sim (k i : Nat) (e : SimEvent) :
    simEvents k [.sim i e] = if i = k then [e] else [] := by
  by_cases h : i = k <;> simp [simEvents, List.filterMap_cons, h]

theorem simEvents_core (k : Nat) (c : Command) : simEvents k [.core c] = [] := rfl

theorem simEvents_stop (k : Nat) : simEvents k [.stopMainLoop] = [] := rfl

theorem simEvents_exit (k : Nat) : simEvents k [.exitLoop] = [] := rfl

theorem traceInv_init (cfg : LoopConfig) (workers : Nat) :
    TraceInv cfg (LoopState.init workers) := by
  constructor <;> simp [LoopState.init, simEvents, tracePrefix]


set_option maxHeartbeats 4000000 in
theorem traceInv_step_sim {cfg : LoopConfig} {s s1 : LoopState}
    (h : TraceInv cfg s) (hs : runMainLoopStep cfg s = some s1) : TraceInv cfg s1 := by
  obtain ⟨pc, rn, fin, mh, nt, q, wk, it, lg⟩ := s
  obtain ⟨⟨w, hw⟩, hearlier, hlater⟩ := h
  simp only at hw hearlier hlater
  have hearlier2 : ∀ e k, k < it → ∃ w, simEvents k (lg ++ [LoopEvent.sim it e])
      = iterationTrace cfg w := by
    intro e k hk
    obtain ⟨w1, hw1⟩ := hearlier k hk
    exact ⟨w1, by simp [simEvents_append, simEvents_sim, Nat.ne_of_gt hk, hw1]⟩
  have hlater2 : ∀ e k, it < k → simEvents k (lg ++ [LoopEvent.sim it e]) = [] := by
    intro e k hk
    simp [simEvents_append, simEvents_sim, Nat.ne_of_lt hk, hlater k hk]
  have hcur : ∀ e, simEvents it (lg ++ [LoopEvent.sim it e]) = simEvents it lg ++ [e] := by
    intro e
    simp [simEvents_append, simEvents_sim]
  cases pc with
  | L148 =>
    simp [runMainLoopStep, LoopState.call] at hs
    subst hs
    refine ⟨⟨0, ?_⟩, ?_, ?_⟩
    · simp only [tracePrefix]
      exact hlater2 _ _ (Nat.lt_succ_self it)
    · intro k hk
      rcases Nat.lt_succ_iff_lt_or_eq.mp hk with hlt | rfl
      · exact hearlier2 _ k hlt
      · refine ⟨w, ?_⟩
        simp only [hcur, hw]
        simp [tracePrefix, iterationTrace, afterGate]
    · intro k hk
      exact hlater2 _ k (Nat.lt_of_succ_lt hk)
  | L134 =>
    simp [runMainLoopStep, LoopState.call] at hs
    subst hs
    refine ⟨⟨w + 1, ?_⟩, hearlier2 _, hlater2 _⟩
    simp only [hcur, hw]
    simp [tracePrefix, waitRounds, waitRound]
  | L118 =>
    simp [runMainLoopStep, LoopState.call, stopMainLoop] at hs
    cases hcb : cfg.mainLoopCallback with
    | none =>
      simp [hcb] at hs
      subst hs
      exact ⟨⟨w, by simp [hw, tracePrefix, callbackEvents, hcb]⟩, hearlier, hlater⟩
    | some cb =>
      simp [hcb] at hs
      split at hs <;> simp only [Option.some.injEq] at hs <;> subst hs <;>
        exact ⟨⟨w, by simp only [hcur, hw]; simp [tracePrefix, callbackEvents, hcb]⟩,
          hearlier2 _, hlater2 _⟩
  | L101 =>
    simp [runMainLoopStep] at hs
    subst hs
    exact ⟨⟨w, by simp [hw, tracePrefix]⟩, hearlier, hlater⟩
  | L103 =>
    simp [runMainLoopStep] at hs
    have hex : ∀ k, simEvents k (lg ++ [LoopEvent.exitLoop]) = simEvents k lg := by
      intro k
      simp [simEvents_append, simEvents_exit]
    split at hs <;> simp at hs <;> subst hs
    · exact ⟨⟨w, by simp [hw, tracePrefix]⟩, hearlier, hlater⟩
    · refine ⟨⟨w, ?_⟩, ?_, ?_⟩
      · simp only [hex, hw]
        simp [tracePrefix]
      · intro k hk
        simp only [hex]
        exact hearlier k hk
      · intro k hk
        simp only [hex]
        exact hlater k hk
  | L130 =>
    simp [runMainLoopStep] at hs
    split at hs <;> simp at hs <;> subst hs <;>
      exact ⟨⟨w, by simp [hw, tracePrefix]⟩, hearlier, hlater⟩
  | L133w =>
    simp [runMainLoopStep, LoopState.wakeUp] at hs
    obtain ⟨_, hs⟩ := hs
    subst hs
    refine ⟨⟨w, ?_⟩, hearlier2 _, hlater2 _⟩
    simp only [hcur, hw]
    simp [tracePrefix, waitRound]
  | L128 =>
    simp [runMainLoopStep, LoopState.call] at hs
    obtain ⟨_, hs⟩ := hs
    subst hs
    refine ⟨⟨0, ?_⟩, hearlier2 _, hlater2 _⟩
    simp only [hcur, hw]
    simp [tracePrefix, beforeGate, waitRounds]
  | L150 => simp [runMainLoopStep] at hs
  | _ =>
    simp [runMainLoopStep, LoopState.call, LoopState.queueCommand, addWorker, removeWorker] at hs
    subst hs
    refine ⟨⟨w, ?_⟩, hearlier2 _, hlater2 _⟩
    simp only [hcur, hw]
    simp [tracePrefix, updates, earlyCommands, afterGate, waitRound]

theorem traceInv_step {cfg : LoopConfig} {a : Action} {s s1 : LoopState}
    (h : TraceInv cfg s) (hs : step cfg a s = some s1) : TraceInv cfg s1 := by
  cases a with
  | sim => exact traceInv_step_sim h hs
  | core =>
    obtain ⟨pc, rn, fin, mh, nt, q, wk, it, lg⟩ := s
    obtain ⟨⟨w, hw⟩, hearlier, hlater⟩ := h
    simp only at hw hearlier hlater
    cases q with
    | nil => simp [step, coreThreadStep] at hs
    | cons c rest =>
      have hc : ∀ k, simEvents k (lg ++ [LoopEvent.core c]) = simEvents k lg := by
        intro k
        simp [simEvents_append, simEvents_core]
      simp [step, coreThreadStep, frameRenderingFinishedCallback] at hs
      split at hs
      · simp at hs
        obtain ⟨_, hs⟩ := hs
        subst hs
        refine ⟨⟨w, ?_⟩, ?_, ?_⟩
        · simp only [hc, hw]
        · intro k hk
          simp only [hc]
          exact hearlier k hk
        · intro k hk
          simp only [hc]
          exact hlater k hk
      · simp at hs
        subst hs
        refine ⟨⟨w, ?_⟩, ?_, ?_⟩
        · simp only [hc, hw]
        · intro k hk
          simp only [hc]
          exact hearlier k hk
        · intro k hk
          simp only [hc]
          exact hlater k hk
  | stop =>
    obtain ⟨pc, rn, fin, mh, nt, q, wk, it, lg⟩ := s
    obtain ⟨⟨w, hw⟩, hearlier, hlater⟩ := h
    simp only at hw hearlier hlater
    have hc : ∀ k, simEvents k (lg ++ [LoopEvent.stopMainLoop]) = simEvents k lg := by
      intro k
      simp [simEvents_append, simEvents_stop]
    simp [step, stopMainLoop] at hs
    subst hs
    refine ⟨⟨w, ?_⟩, ?_, ?_⟩
    · simp only [hc, hw]
    · intro k hk
      simp only [hc]
      exact hearlier k hk
    · intro k hk
      simp only [hc]
      exact hlater k hk
  | spurious =>
    obtain ⟨pc, rn, fin, mh, nt, q, wk, it, lg⟩ := s
    obtain ⟨⟨w, hw⟩, hearlier, hlater⟩ := h
    simp only at hw hearlier hlater
    simp [step, LoopState.wakeUp] at hs
    obtain ⟨hpc, hs⟩ := hs
    subst hs
    subst hpc
    refine ⟨⟨w, ?_⟩, ?_, ?_⟩
    · simp [simEvents_append, simEvents_sim, hw, tracePrefix, waitRound]
    · intro k hk
      obtain ⟨w1, hw1⟩ := hearlier k hk
      exact ⟨w1, by simp [simEvents_append, simEvents_sim, Nat.ne_of_gt hk, hw1]⟩
    · intro k hk
      simp [simEvents_append, simEvents_sim, Nat.ne_of_lt hk, hlater k hk]

theorem Reachable.traceInv {cfg : LoopConfig} {workers : Nat} {s : LoopState}
    (h : Reachable cfg workers s) : TraceInv cfg s :=
  reachable_induction (TraceInv cfg) (traceInv_init cfg workers)
    (fun _ _ _ _ hp hs => traceInv_step hp hs) s h

theorem mem_waitRounds {e : SimEvent} : ∀ w, e ∈ waitRounds w → e ∈ waitRound := by
  intro w
  induction w with
  | zero => simp [waitRounds]
  | succ n ih =>
    intro h
    simp only [waitRounds, List.mem_append] at h
    rcases h with h | h
    · exact ih h
    · exact h

theorem count_waitRounds (e : SimEvent) : ∀ w,
    (waitRounds w).count e = w * waitRound.count e := by
  intro w
  induction w with
  | zero => simp [waitRounds]
  | succ n ih =>
    simp only [waitRounds, List.count_append, ih]
    ring

/-- At every program point, what the current iteration has done so far: a late
command was queued only after the gate was closed, and the mutex was locked only
after the two early commands were queued and the renderer was called. -/
theorem tracePrefix_order (cfg : LoopConfig) (w : Nat) (pc : Pc) :
    (∀ c, SimEvent.queueCommand c ∈ tracePrefix cfg w pc →
        c = .platformCoreUpdate ∨ c = .endCoreProfiling ∨ c = .frameRenderingFinishedCallback →
        SimEvent.closeGate ∈ tracePrefix cfg w pc)
    ∧ (SimEvent.lockMutex ∈ tracePrefix cfg w pc →
        SimEvent.queueCommand .beginCoreProfiling ∈ tracePrefix cfg w pc
        ∧ SimEvent.queueCommand .queryManagerUpdate ∈ tracePrefix cfg w pc
        ∧ SimEvent.renderAll ∈ tracePrefix cfg w pc) := by
  have hw : ∀ c, SimEvent.queueCommand c ∉ waitRounds w := by
    intro c h
    have := mem_waitRounds w h
    simp [waitRound] at this
  have hcb : ∀ c, SimEvent.queueCommand c ∉ callbackEvents cfg := by
    intro c
    unfold callbackEvents
    split <;> simp
  have hcb2 : SimEvent.lockMutex ∉ callbackEvents cfg := by
    unfold callbackEvents
    split <;> simp
  constructor
  · intro c hmem hc
    cases pc <;>
      simp [tracePrefix, updates, earlyCommands, beforeGate, afterGate, waitRound, hw, hcb] at hmem ⊢ <;>
      rcases hc with rfl | rfl | rfl <;> simp at hmem
  · cases pc <;>
      simp [tracePrefix, updates, earlyCommands, beforeGate, afterGate, waitRound, hcb2]

/-- At every program point, the current iteration closed the gate only after it
locked the mutex. -/
theorem tracePrefix_close_lock (cfg : LoopConfig) (w : Nat) (pc : Pc) :
    SimEvent.closeGate ∈ tracePrefix cfg w pc → SimEvent.lockMutex ∈ tracePrefix cfg w pc := by
  have hw : SimEvent.closeGate ∉ waitRounds w := by
    intro h
    have := mem_waitRounds w h
    simp [waitRound] at this
  have hcb : SimEvent.closeGate ∉ callbackEvents cfg := by
    unfold callbackEvents
    split <;> simp
  cases pc <;>
    simp [tracePrefix, updates, earlyCommands, beforeGate, afterGate, waitRound, hw, hcb]

theorem workerCalls_append (a b : List SimEvent) :
    workerCalls (a ++ b) = workerCalls a ++ workerCalls b := by
  simp [workerCalls]

theorem workerCalls_waitRounds : ∀ w, workerCalls (waitRounds w) = donateReclaim w := by
  intro w
  induction w with
  | zero => rfl
  | succ n ih =>
    simp only [waitRounds, donateReclaim, workerCalls_append, ih]
    rfl

theorem workerCalls_callbackEvents (cfg : LoopConfig) :
    workerCalls (callbackEvents cfg) = [] := by
  unfold callbackEvents
  split <;> rfl

theorem workerCalls_beforeGate (cfg : LoopConfig) : workerCalls (beforeGate cfg) = [] := by
  simp only [beforeGate, workerCalls_append, workerCalls_callbackEvents]
  rfl

theorem count_callbackEvents (cfg : LoopConfig) (e : SimEvent) (he : e ≠ .mainLoopCallback) :
    (callbackEvents cfg).count e = 0 := by
  unfold callbackEvents
  split
  · rfl
  · rw [List.count_eq_zero]
    simpa using he

/-- In a complete iteration whose wait loop went round `w` times, each of
`addWorker`, `wait`, `wake`, `removeWorker` happens exactly `w` times. -/
theorem count_iterationTrace (cfg : LoopConfig) (w : Nat) (e : SimEvent)
    (he : e ∈ waitRound) : (iterationTrace cfg w).count e = w := by
  have hne : e ≠ .mainLoopCallback := by
    intro h
    subst h
    simp [waitRound] at he
  simp only [iterationTrace, beforeGate, List.count_append, count_waitRounds,
    count_callbackEvents cfg e hne]
  simp only [waitRound, List.mem_cons, List.mem_singleton, List.not_mem_nil, or_false] at he
  rcases he with rfl | rfl | rfl | rfl <;>
    simp [updates, earlyCommands, afterGate, waitRound]

theorem workerCalls_iterationTrace (cfg : LoopConfig) (w : Nat) :
    workerCalls (iterationTrace cfg w) = donateReclaim w := by
  simp only [iterationTrace, workerCalls_append, workerCalls_beforeGate,
    workerCalls_waitRounds]
  simp [workerCalls, afterGate]

theorem workerCalls_tracePrefix (cfg : LoopConfig) (w : Nat) (pc : Pc) :
    ∃ w1, workerCalls (tracePrefix cfg w pc)
      = donateReclaim w1 ++ if pc.donated = 1 then [SimEvent.addWorker] else [] := by
  cases pc
  case L130 | L132 | L133 | L133w | L134 | L137 | L138 | L140 | L141 | L142 | L143 | L145
      | L147 | L148 =>
    refine ⟨w, ?_⟩
    simp only [tracePrefix, workerCalls_append, workerCalls_beforeGate, workerCalls_waitRounds]
    simp [workerCalls, afterGate, waitRound, Pc.donated]
  all_goals
    refine ⟨0, ?_⟩
    simp only [tracePrefix, workerCalls_append, workerCalls_callbackEvents]
    simp [workerCalls, updates, earlyCommands, donateReclaim, Pc.donated]

/-- One iteration in lockstep, from the loop condition with the gate open and the
queue empty, ends at the loop condition with the gate open and the queue empty. -/
theorem lockstepIteration_run (s : LoopState) (hpc : s.pc = .L103)
    (hrun : s.mRunMainLoop = true) (hfin : s.mIsFrameRenderingFinished = true)
    (hm : s.mutexHeld = false) (hq : s.queue = []) :
    ∃ s1, run noCallback lockstepIteration s = some s1 ∧ s1.pc = .L103
      ∧ s1.mRunMainLoop = true ∧ s1.mIsFrameRenderingFinished = true
      ∧ s1.mutexHeld = false ∧ s1.queue = [] ∧ s1.iter = s.iter + 1 := by
  obtain ⟨pc, rn, fin, mh, nt, q, wk, it, lg⟩ := s
  simp only at hpc hrun hfin hm hq
  subst hpc hrun hfin hm hq
  simp [lockstepIteration, List.replicate, run, step, runMainLoopStep, coreThreadStep,
    frameRenderingFinishedCallback, LoopState.call, LoopState.queueCommand, noCallback]

/-- The lockstep schedule of `N` iterations. -/
theorem lockstep_run_exists (workers N : Nat) :
    ∃ sched s, run noCallback sched (LoopState.init workers) = some s ∧ s.pc = .L103
      ∧ s.mRunMainLoop = true ∧ s.mIsFrameRenderingFinished = true
      ∧ s.mutexHeld = false ∧ s.queue = [] ∧ s.iter = N := by
  induction N with
  | zero =>
    refine ⟨[.sim], _, rfl, ?_⟩
    simp [LoopState.init, Application.new]
  | succ n ih =>
    obtain ⟨sched, s, hr, hpc, hrun, hfin, hm, hq, hit⟩ := ih
    obtain ⟨s1, hr1, h1, h2, h3, h4, h5, h6⟩ := lockstepIteration_run s hpc hrun hfin hm hq
    refine ⟨sched ++ lockstepIteration, s1, ?_, h1, h2, h3, h4, h5, by omega⟩
    rw [run_append, hr]
    exact hr1

/-- Once the loop was told to stop, every step keeps it told to stop and either
stays inside the iteration under way (the one that makes `m` complete iterations)
or stands at the loop condition or the exit with `m` iterations complete; and the
exit is entered from the loop condition only. -/
theorem stopping_step {cfg : LoopConfig} {a : Action} {s s1 : LoopState} {m : Nat}
    (h : Stopping s)
    (hk : (s.iter + 1 = m ∧ s.pc.inBody = true) ∨ (s.iter = m ∧ (s.pc = .L103 ∨ s.pc = .L150)))
    (hs : step cfg a s = some s1) :
    Stopping s1
    ∧ ((s1.iter + 1 = m ∧ s1.pc.inBody = true)
        ∨ (s1.iter = m ∧ (s1.pc = .L103 ∨ s1.pc = .L150)))
    ∧ (s1.pc = .L150 → s.pc = .L103 ∨ s.pc = .L150) := by
  obtain ⟨pc, rn, fin, mh, nt, q, wk, it, lg⟩ := s
  obtain ⟨h1, h2⟩ := h
  simp only at h1 h2 hk
  subst h1
  cases a with
  | sim =>
    cases pc <;>
      simp [step, runMainLoopStep, LoopState.call, LoopState.queueCommand, stopMainLoop,
        LoopState.wakeUp] at hs
    all_goals (try split at hs)
    all_goals (try simp only [Option.some.injEq] at hs)
    all_goals (try (obtain ⟨_, hs⟩ := hs))
    all_goals (try subst hs)
    all_goals simp_all [Stopping, Pc.inBody]
  | core =>
    cases q with
    | nil => simp [step, coreThreadStep] at hs
    | cons c rest =>
      simp [step, coreThreadStep, frameRenderingFinishedCallback] at hs
      split at hs
      · simp at hs
        obtain ⟨_, hs⟩ := hs
        subst hs
        refine ⟨⟨rfl, h2⟩, hk, ?_⟩
        intro h
        exact Or.inr h
      · simp at hs
        subst hs
        refine ⟨⟨rfl, h2⟩, hk, ?_⟩
        intro h
        exact Or.inr h
  | stop =>
    simp [step, stopMainLoop] at hs
    subst hs
    refine ⟨⟨rfl, h2⟩, hk, ?_⟩
    intro h
    exact Or.inr h
  | spurious =>
    simp [step, LoopState.wakeUp] at hs
    obtain ⟨hpc, hs⟩ := hs
    subst hs
    subst hpc
    simp_all [Stopping, Pc.inBody]

/-- A stopped loop can always make progress towards returning: in every reachable
state told to stop and not yet returned, the simulation thread can run its next
statement, or (blocked in the wait with the gate closed) the core thread can run
its next command, and the effort left decreases. -/
theorem progress_step {cfg : LoopConfig} {workers : Nat} {s : LoopState}
    (hreach : Reachable cfg workers s) (h : Stopping s) (hpc : s.pc ≠ .L150) :
    ∃ a s1, step cfg a s = some s1 ∧ s1.effort < s.effort := by
  have hg := hreach.gateInv
  obtain ⟨pc, rn, fin, mh, nt, q, wk, it, lg⟩ := s
  obtain ⟨h1, h2, h3, h4, h5, h6, h7, h8, h9, h10⟩ := hg
  obtain ⟨hr, hne⟩ := h
  simp only at h1 h2 h3 h4 h5 h6 h7 h8 h9 h10 hr hne hpc
  subst hr
  cases pc
  case L101 => exact absurd rfl hne
  case L150 => exact absurd rfl hpc
  case L118 =>
    cases hcb : cfg.mainLoopCallback with
    | none =>
      exact ⟨.sim, _, by simp [step, runMainLoopStep, hcb]; rfl,
        by simp [LoopState.effort, Pc.weight]⟩
    | some cb =>
      cases hc : cb it with
      | true =>
        exact ⟨.sim, _, by simp [step, runMainLoopStep, hcb, hc]; rfl,
          by simp [LoopState.effort, Pc.weight, stopMainLoop, LoopState.call]⟩
      | false =>
        exact ⟨.sim, _, by simp [step, runMainLoopStep, hcb, hc]; rfl,
          by simp [LoopState.effort, Pc.weight, stopMainLoop, LoopState.call]⟩
  case L128 =>
    simp [Pc.holdsMutex] at h1
    subst h1
    cases fin with
    | true => exact ⟨.sim, _, rfl, by simp [LoopState.effort, Pc.weight, LoopState.call]⟩
    | false => exact ⟨.sim, _, rfl, by simp [LoopState.effort, Pc.weight, LoopState.call]⟩
  case L130 =>
    cases fin with
    | true => exact ⟨.sim, _, rfl, by simp [LoopState.effort, Pc.weight]⟩
    | false => exact ⟨.sim, _, rfl, by simp [LoopState.effort, Pc.weight]⟩
  case L134 =>
    cases fin with
    | true => exact ⟨.sim, _, rfl, by simp [LoopState.effort, Pc.weight, LoopState.call]⟩
    | false => exact ⟨.sim, _, rfl, by simp [LoopState.effort, Pc.weight, LoopState.call]⟩
  case L133 =>
    have hf : fin = false := h7 (Or.inr rfl)
    subst hf
    exact ⟨.sim, _, rfl, by simp [LoopState.effort, Pc.weight, LoopState.call]⟩
  case L133w =>
    cases fin with
    | true =>
      have hn : nt = true := h9 rfl rfl
      subst hn
      exact ⟨.sim, _, rfl, by simp [LoopState.effort, Pc.weight, LoopState.wakeUp]⟩
    | false =>
      simp [Pc.holdsMutex] at h1
      subst h1
      simp [Pc.passedGate, Pc.signalQueued] at h2 h3 h5
      cases q with
      | nil =>
        simp at h4
        omega
      | cons c rest =>
        cases c
        case frameRenderingFinishedCallback =>
          exact ⟨.core, _, rfl, by simp [LoopState.effort, Pc.weight]; omega⟩
        all_goals
          exact ⟨.core, _, rfl, by simp [LoopState.effort, Pc.weight]⟩
  all_goals
    exact ⟨.sim, _, rfl,
      by simp [LoopState.effort, Pc.weight, LoopState.call, LoopState.queueCommand] <;> omega⟩

theorem stopping_phase {s : LoopState} (h : Stopping s) :
    ∃ m, (s.iter + 1 = m ∧ s.pc.inBody = true) ∨ (s.iter = m ∧ (s.pc = .L103 ∨ s.pc = .L150)) := by
  obtain ⟨-, hne⟩ := h
  cases hpc : s.pc
  case L101 => exact absurd hpc hne
  case L103 => exact ⟨s.iter, Or.inr ⟨rfl, Or.inl rfl⟩⟩
  case L150 => exact ⟨s.iter, Or.inr ⟨rfl, Or.inr rfl⟩⟩
  all_goals exact ⟨s.iter + 1, Or.inl ⟨rfl, rfl⟩⟩

/-- A loop that was told to stop returns: from every reachable state told to stop
there is a continuation of the run at whose end `runMainLoop` has returned. -/
theorem stopped_loop_returns {cfg : LoopConfig} {workers : Nat} :
    ∀ n s, Reachable cfg workers s → Stopping s → s.effort ≤ n →
      ∃ sched1 s1, run cfg sched1 s = some s1 ∧ s1.pc = .L150 := by
  intro n
  induction n with
  | zero =>
    intro s _ _ he
    refine ⟨[], s, rfl, ?_⟩
    have hw : s.pc.weight s.mIsFrameRenderingFinished = 0 := by
      unfold LoopState.effort at he
      omega
    revert hw
    cases s.pc <;> cases s.mIsFrameRenderingFinished <;> simp [Pc.weight]
  | succ n ih =>
    intro s hreach hstop he
    by_cases hpc : s.pc = .L150
    · exact ⟨[], s, rfl, hpc⟩
    · obtain ⟨a, s1, hs, hlt⟩ := progress_step hreach hstop hpc
      obtain ⟨m, hm⟩ := stopping_phase hstop
      have hstop1 := (stopping_step hstop hm hs).1
      obtain ⟨sched1, s2, hr, hend⟩ := ih s1 (hreach.step hs) hstop1 (by omega)
      refine ⟨a :: sched1, s2, ?_, hend⟩
      simp only [run, hs]
      exact hr

/-- Along every continuation of a run that was told to stop, the loop stays told to
stop and never gets past the end of the iteration under way. -/
theorem stopping_run {cfg : LoopConfig} {m : Nat} (sched1 : List Action) :
    ∀ {s s1 : LoopState}, Stopping s →
      ((s.iter + 1 = m ∧ s.pc.inBody = true) ∨ (s.iter = m ∧ (s.pc = .L103 ∨ s.pc = .L150))) →
      run cfg sched1 s = some s1 →
      Stopping s1
      ∧ ((s1.iter + 1 = m ∧ s1.pc.inBody = true)
          ∨ (s1.iter = m ∧ (s1.pc = .L103 ∨ s1.pc = .L150))) := by
  induction sched1 with
  | nil =>
    intro s s1 h hm hr
    simp [run] at hr
    subst hr
    exact ⟨h, hm⟩
  | cons a rest ih =>
    intro s s1 h hm hr
    simp only [run] at hr
    cases hst : step cfg a s with
    | none => simp [hst] at hr
    | some s2 =>
      rw [hst] at hr
      obtain ⟨h2, hm2, -⟩ := stopping_step h hm hst
      exact ih h2 hm2 hr


/-- Every step leaves the history alone or adds one entry to it. -/
theorem step_log {cfg : LoopConfig} {a : Action} {s s1 : LoopState}
    (hs : step cfg a s = some s1) : s1.log = s.log ∨ ∃ e, s1.log = s.log ++ [e] := by
  rcases step_gate_effect hs with ⟨-, h | ⟨e, h, -, -⟩⟩ | ⟨-, -, -, h⟩ | ⟨-, -, -, h⟩
  · exact Or.inl h
  · exact Or.inr ⟨e, h⟩
  · exact Or.inr ⟨_, h⟩
  · exact Or.inr ⟨_, h⟩

theorem append_singleton_eq_split {α : Type} (l pre post : List α) (x e : α)
    (h : l ++ [x] = pre ++ e :: post) :
    (post = [] ∧ pre = l ∧ e = x) ∨ ∃ post1, post = post1 ++ [x] ∧ l = pre ++ e :: post1 := by
  rcases List.eq_nil_or_concat post with rfl | ⟨post1, y, rfl⟩
  · left
    have h2 : l ++ [x] = pre ++ [e] := h
    obtain ⟨h3, h4⟩ := List.append_inj' h2 rfl
    simp only [List.cons.injEq, and_true] at h4
    exact ⟨rfl, h3.symm, h4.symm⟩
  · right
    have h2 : l ++ [x] = (pre ++ e :: post1) ++ [y] := by
      rw [h]
      simp
    obtain ⟨h3, h4⟩ := List.append_inj' h2 rfl
    simp only [List.cons.injEq, and_true] at h4
    subst h4
    exact ⟨post1, by simp, h3⟩

/-- Every entry of the history of a reachable state was added by a step taken from
a reachable state whose history was what precedes the entry. -/
theorem reachable_moment {cfg : LoopConfig} {workers : Nat} :
    ∀ s, Reachable cfg workers s → ∀ pre e post, s.log = pre ++ e :: post →
      ∃ s0 a s1, Reachable cfg workers s0 ∧ step cfg a s0 = some s1
        ∧ s0.log = pre ∧ s1.log = pre ++ [e] := by
  apply reachable_induction
  · intro pre e post h
    simp [LoopState.init] at h
  · intro a s s1 hreach ih hs pre e post h
    rcases step_log hs with hl | ⟨x, hl⟩
    · rw [hl] at h
      exact ih pre e post h
    · rw [hl] at h
      rcases append_singleton_eq_split _ _ _ _ _ h with ⟨-, hpre, he⟩ | ⟨post1, -, hl2⟩
      · subst hpre he
        exact ⟨s, a, s1, hreach, hs, rfl, hl⟩
      · exact ih pre e post1 hl2

theorem mem_simEvents (k : Nat) (ev : SimEvent) (l : List LoopEvent) :
    ev ∈ simEvents k l ↔ LoopEvent.sim k ev ∈ l := by
  unfold simEvents
  rw [List.mem_filterMap]
  constructor
  · rintro ⟨e, he, h⟩
    cases e with
    | sim i x =>
      by_cases hik : i = k
      · simp [hik] at h
        subst hik h
        exact he
      · simp [hik] at h
    | core c => simp at h
    | stopMainLoop => simp at h
    | exitLoop => simp at h
  · intro h
    exact ⟨_, h, by simp⟩

/-- In what iteration `k` has done so far, at any moment: a late command was queued
only after the gate was closed, the gate was closed only after the mutex was
locked, and the mutex was locked only after the two early commands were queued and
the renderer was called. -/
theorem simEvents_order {cfg : LoopConfig} {workers : Nat} {s : LoopState}
    (hreach : Reachable cfg workers s) (k : Nat) :
    (∀ c, SimEvent.queueCommand c ∈ simEvents k s.log →
        c = .platformCoreUpdate ∨ c = .endCoreProfiling ∨ c = .frameRenderingFinishedCallback →
        SimEvent.closeGate ∈ simEvents k s.log)
    ∧ (SimEvent.closeGate ∈ simEvents k s.log → SimEvent.lockMutex ∈ simEvents k s.log)
    ∧ (SimEvent.lockMutex ∈ simEvents k s.log →
        SimEvent.queueCommand .beginCoreProfiling ∈ simEvents k s.log
        ∧ SimEvent.queueCommand .queryManagerUpdate ∈ simEvents k s.log
        ∧ SimEvent.renderAll ∈ simEvents k s.log) := by
  have hinv := hreach.traceInv
  rcases Nat.lt_trichotomy k s.iter with hlt | rfl | hgt
  · obtain ⟨w, hw⟩ := hinv.earlier k hlt
    rw [hw]
    simp [iterationTrace, beforeGate, afterGate, earlyCommands]
  · obtain ⟨w, hw⟩ := hinv.current
    rw [hw]
    refine ⟨(tracePrefix_order cfg w s.pc).1, ?_, (tracePrefix_order cfg w s.pc).2⟩
    exact tracePrefix_close_lock cfg w s.pc
  · rw [hinv.later k hgt]
    simp

/-- A step that adds a close of iteration `k` to the history is line 137 run by the
simulation thread in iteration `k`. -/
theorem close_step {cfg : LoopConfig} {a : Action} {s0 s1 : LoopState} {k : Nat}
    (hs : step cfg a s0 = some s1) (hl : s1.log = s0.log ++ [.sim k .closeGate]) :
    a = .sim ∧ s0.pc = .L137 ∧ s0.iter = k := by
  rcases step_gate_effect hs with ⟨-, h | ⟨e, h, he, -⟩⟩ | ⟨ha, hpc, -, h⟩ | ⟨-, -, -, h⟩
  · rw [h] at hl
    have := congrArg List.length hl
    simp at this
  · rw [h] at hl
    have h2 := List.append_cancel_left hl
    simp only [List.cons.injEq, and_true] at h2
    subst h2
    simp [LoopEvent.isClose] at he
  · rw [h] at hl
    have h2 := List.append_cancel_left hl
    simp only [List.cons.injEq, and_true, LoopEvent.sim.injEq] at h2
    exact ⟨ha, hpc, h2⟩
  · rw [h] at hl
    have h2 := List.append_cancel_left hl
    simp at h2

/-- An iteration locks the gate mutex at most once. -/
theorem count_lockMutex_le {cfg : LoopConfig} {workers : Nat} {s : LoopState}
    (hreach : Reachable cfg workers s) (k : Nat) :
    (simEvents k s.log).count .lockMutex ≤ 1 := by
  have hinv := hreach.traceInv
  have hcb := count_callbackEvents cfg .lockMutex (by simp)
  rcases Nat.lt_trichotomy k s.iter with hlt | rfl | hgt
  · obtain ⟨w, hw⟩ := hinv.earlier k hlt
    rw [hw]
    simp only [iterationTrace, beforeGate, List.count_append, count_waitRounds, hcb]
    simp [updates, earlyCommands, afterGate, waitRound]
  · obtain ⟨w, hw⟩ := hinv.current
    rw [hw]
    cases s.pc <;>
      simp only [tracePrefix, beforeGate, List.count_append, count_waitRounds, hcb] <;>
      simp [updates, earlyCommands, afterGate, waitRound]
  · rw [hinv.later k hgt]
    simp

/-- A step that adds an entry into `CM_THREAD_WAIT` of iteration `k` to the history
is line 133 run by the simulation thread in iteration `k`. -/
theorem wait_step {cfg : LoopConfig} {a : Action} {s0 s1 : LoopState} {k : Nat}
    (hs : step cfg a s0 = some s1) (hl : s1.log = s0.log ++ [.sim k .wait]) :
    a = .sim ∧ s0.pc = .L133 ∧ s0.iter = k := by
  obtain ⟨pc, rn, fin, mh, nt, q, wk, it, lg⟩ := s0
  cases a with
  | sim =>
    cases pc <;>
      simp [step, runMainLoopStep, LoopState.call, LoopState.queueCommand, stopMainLoop,
        LoopState.wakeUp] at hs
    all_goals (try split at hs)
    all_goals (try split at hs)
    all_goals (try simp only [Option.some.injEq] at hs)
    all_goals (try (obtain ⟨_, hs⟩ := hs))
    all_goals (try subst hs)
    all_goals simp at hl
    all_goals simp [hl]
  | core =>
    cases q with
    | nil => simp [step, coreThreadStep] at hs
    | cons c rest =>
      simp [step, coreThreadStep, frameRenderingFinishedCallback] at hs
      split at hs
      · simp at hs
        obtain ⟨_, hs⟩ := hs
        subst hs
        simp at hl
      · simp at hs
        subst hs
        simp at hl
  | stop =>
    simp [step, stopMainLoop] at hs
    subst hs
    simp at hl
  | spurious =>
    simp [step, LoopState.wakeUp] at hs
    obtain ⟨_, hs⟩ := hs
    subst hs
    simp at hl

/-- Once the run flag is false inside iteration `k` (after `k = s.iter` complete
ones): along every continuation the flag stays false, the loop is inside iteration
`k` or stands at the loop condition or has returned with iteration `k` complete
through the profiler update, and it can still return from there; no step from
inside the iteration returns; and some continuation returns. -/
theorem stopped_iteration_completes {cfg : LoopConfig} {workers : Nat} {s : LoopState}
    (hreach : Reachable cfg workers s)
    (hbody : s.pc.inBody = true) (hstop : s.mRunMainLoop = false) :
    (∀ sched1 s1, run cfg sched1 s = some s1 →
        s1.mRunMainLoop = false
        ∧ s1.iter ≤ s.iter + 1
        ∧ (s1.iter = s.iter → s1.pc.inBody = true)
        ∧ (s1.iter = s.iter + 1 → (s1.pc = .L103 ∨ s1.pc = .L150)
            ∧ ∃ w, simEvents s.iter s1.log = iterationTrace cfg w)
        ∧ (s1.pc = .L150 → s1.iter = s.iter + 1)
        ∧ (s1.pc = .L103 → (step cfg .sim s1).map LoopState.pc = some .L150)
        ∧ ∃ sched2 s2, run cfg sched2 s1 = some s2 ∧ s2.pc = .L150 ∧ s2.iter = s.iter + 1)
    ∧ (∀ a s1, step cfg a s = some s1 → s1.pc ≠ .L150)
    ∧ (∃ sched1 s1, run cfg sched1 s = some s1 ∧ s1.pc = .L150 ∧ s1.iter = s.iter + 1) := by
  have hne : s.pc ≠ .L101 := by
    intro h
    rw [h] at hbody
    cases hbody
  have hS : Stopping s := ⟨hstop, hne⟩
  have hm : (s.iter + 1 = s.iter + 1 ∧ s.pc.inBody = true)
      ∨ (s.iter = s.iter + 1 ∧ (s.pc = .L103 ∨ s.pc = .L150)) := Or.inl ⟨rfl, hbody⟩
  have hout : ∀ p : Pc, p = .L103 ∨ p = .L150 → p.inBody = false := by
    intro p hp
    rcases hp with rfl | rfl <;> rfl
  have safety : ∀ sched1 s1, run cfg sched1 s = some s1 →
      s1.mRunMainLoop = false
      ∧ s1.iter ≤ s.iter + 1
      ∧ (s1.iter = s.iter → s1.pc.inBody = true)
      ∧ (s1.iter = s.iter + 1 → (s1.pc = .L103 ∨ s1.pc = .L150)
          ∧ ∃ w, simEvents s.iter s1.log = iterationTrace cfg w)
      ∧ (s1.pc = .L150 → s1.iter = s.iter + 1)
      ∧ (s1.pc = .L103 → (step cfg .sim s1).map LoopState.pc = some .L150)
      ∧ ∃ sched2 s2, run cfg sched2 s1 = some s2 ∧ s2.pc = .L150 ∧ s2.iter = s.iter + 1 := by
    intro sched1 s1 hr1
    obtain ⟨hS1, hphase⟩ := stopping_run sched1 hS hm hr1
    have hflag := hS1.1
    have hreach1 : Reachable cfg workers s1 := hreach.run sched1 hr1
    refine ⟨hflag, ?_, ?_, ?_, ?_, ?_, ?_⟩
    · rcases hphase with ⟨h, -⟩ | ⟨h, -⟩ <;> omega
    · intro heq
      rcases hphase with ⟨-, h⟩ | ⟨h, -⟩
      · exact h
      · omega
    · intro heq
      rcases hphase with ⟨h, -⟩ | ⟨-, h⟩
      · omega
      · exact ⟨h, hreach1.traceInv.earlier s.iter (by omega)⟩
    · intro hpc
      rcases hphase with ⟨-, h⟩ | ⟨h, -⟩
      · rw [hpc] at h
        cases h
      · exact h
    · intro hpc
      simp [step, runMainLoopStep, hpc, hflag]
    · obtain ⟨sched2, s2, hr2, hend⟩ :=
        stopped_loop_returns s1.effort s1 hreach1 hS1 (Nat.le_refl _)
      refine ⟨sched2, s2, hr2, hend, ?_⟩
      obtain ⟨-, hphase2⟩ := stopping_run sched2 hS1 hphase hr2
      rcases hphase2 with ⟨-, h⟩ | ⟨h, -⟩
      · rw [hend] at h
        cases h
      · exact h
  refine ⟨safety, ?_, ?_⟩
  · intro a s1 hs hpc
    have h3 := (stopping_step hS hm hs).2.2 hpc
    rw [hout _ h3] at hbody
    cases hbody
  · obtain ⟨sched1, s1, hr1, hend⟩ := stopped_loop_returns s.effort s hreach hS (Nat.le_refl _)
    exact ⟨sched1, s1, hr1, hend, (safety sched1 s1 hr1).2.2.2.2.1 hend⟩

/-! ## The claims -/

/-- C1 (what the code does, for every configuration, platform and library loader):
when `startUp` and then `shutDown` complete, the subsystems were started in the
order of the `startUp` calls and were stopped in an order that is not its reverse:
`RenderSystemManager` is stopped before `Input`, although it was started before
`Input`; the other twenty are stopped in reverse order. -/
theorem shutDown_order_not_reverse_of_startUp (env : Env) (desc : START_UP_DESC)
    (w1 w2 : World)
    (h1 : startUp env desc World.new = .ok () w1) (h2 : shutDown w1 = .ok () w2) :
    startUpOrder w2.log =
        [.Platform, .MemStack, .UUIDGenerator, .Profiler, .ThreadPool, .TaskScheduler,
         .CoreThread, .StringTable, .DeferredCallManager, .Time, .DynLibManager,
         .CoreObjectManager, .GameObjectManager, .Resources, .GpuProgramManager,
         .RenderSystemManager, .Input, .RendererManager, .MeshManager, .MaterialManager,
         .FontManager, .Importer]
    ∧ shutDownOrder w2.log =
        [.Importer, .FontManager, .MaterialManager, .MeshManager, .RendererManager,
         .RenderSystemManager, .Input, .GpuProgramManager, .Resources, .GameObjectManager,
         .CoreObjectManager, .DynLibManager, .Time, .DeferredCallManager, .StringTable,
         .CoreThread, .TaskScheduler, .ThreadPool, .Profiler, .UUIDGenerator, .MemStack,
         .Platform]
    ∧ shutDownOrder w2.log ≠ (startUpOrder w2.log).reverse := by
  obtain ⟨ha, hb⟩ := adds_startUp_all env desc _ _ _ h1
  obtain ⟨hc, hd⟩ := adds_shutDown_all _ _ _ h2
  have e1 : startUpOrder World.new.log = [] := rfl
  have e2 : shutDownOrder World.new.log = [] := rfl
  rw [e1] at ha
  rw [e2] at hb
  rw [ha] at hc
  rw [hb] at hd
  simp only [List.nil_append, List.append_nil] at ha hb hc hd
  refine ⟨hc, hd, ?_⟩
  rw [hc, hd]
  decide

/-- C1 on the sample configuration with every module loading: `startUp` and
`shutDown` both complete, and the stop order is not the reverse start order. -/
theorem shutDown_order_not_reverse_of_startUp_witness :
    startUp (envAllLoad .WIN32) sampleDesc World.new = .ok () sampleStarted.world
    ∧ shutDown sampleStarted.world = .ok () sampleStopped.world
    ∧ shutDownOrder sampleStopped.world.log ≠ (startUpOrder sampleStopped.world.log).reverse :=
  ⟨by decide!, by decide!,
    (shutDown_order_not_reverse_of_startUp (envAllLoad .WIN32) sampleDesc
      sampleStarted.world sampleStopped.world (by decide!) (by decide!)).2.2⟩

/-- C2 (what the code does on names shorter than the suffix, for every platform):
`name.length() - k` wraps around to a position past the end of the name, so
`substr` throws `std::out_of_range`; the resolution fails instead of yielding
`name ++ s`. (For names at least as long as the suffix, `resolvePluginName_of_long`
shows the resolution the claim describes.) -/
theorem resolvePluginName_throws_on_short_names (p : Platform) (name : CmString)
    (hlen : name.length < (pluginSuffix p).length) :
    resolvePluginName p name = .error .outOfRange :=
  resolvePluginName_of_short p name hlen

/-- C2 on concrete names: the empty name and `"ab"` on Linux, `"Foo"` on Windows
and macOS throw; `"Foo"` and `"Foo.so"` on Linux resolve to `"Foo.so"`; and
`loadPlugin` on the empty name ends with the exception without calling the loader. -/
theorem resolvePluginName_throws_on_short_names_witness :
    resolvePluginName .LINUX "".toList = .error .outOfRange
    ∧ resolvePluginName .LINUX "ab".toList = .error .outOfRange
    ∧ resolvePluginName .WIN32 "Foo".toList = .error .outOfRange
    ∧ resolvePluginName .APPLE "Foo".toList = .error .outOfRange
    ∧ resolvePluginName .LINUX "Foo".toList = .ok "Foo.so".toList
    ∧ resolvePluginName .LINUX "Foo.so".toList = .ok "Foo.so".toList
    ∧ loadPlugin (envAllLoad .LINUX) "".toList none World.new = .fault .outOfRange World.new :=
  ⟨resolvePluginName_throws_on_short_names .LINUX "".toList (by decide),
    resolvePluginName_throws_on_short_names .LINUX "ab".toList (by decide),
    resolvePluginName_throws_on_short_names .WIN32 "Foo".toList (by decide),
    resolvePluginName_throws_on_short_names .APPLE "Foo".toList (by decide),
    by decide!, by decide!, by decide!⟩

/-- C3: the plugin load contract of `Application::loadPlugin`, for every platform,
loader, plugin name, out-pointer and starting world, stated from what the
environment answers. (a) If the name resolution throws, the call ends with that
exception, the world untouched. Otherwise let `n` be the resolved name; the loader
is called once, with `n`. (b) If it returns a handle `lib` exposing `loadPlugin`,
the entry point is invoked, once and after the load, and the returned context is
its result. (c) If it returns a handle without the symbol, nothing is invoked and
the context is null. (d) If it returns null, nothing is invoked and the context is
null. In (b), (c), (d) the out-pointer, when not null, receives exactly what the
loader returned, and nothing else of the application changes. (e) Hence the entry
point is invoked iff the loader returned a non-null handle exposing the symbol, and
any load or invocation in the log is the one just described. -/
theorem loadPlugin_contract (env : Env) (pluginName : CmString)
    (library : Option LibrarySlot) (w : World) :
    (∀ e, resolvePluginName env.platform pluginName = .error e →
        loadPlugin env pluginName library w = .fault e w)
    ∧ (∀ n lib f, resolvePluginName env.platform pluginName = .ok n →
        env.dynLibLoad n = some lib → lib.getSymbol "loadPlugin".toList = some f →
        (loadPlugin env pluginName library w).value? = some f.result
        ∧ (loadPlugin env pluginName library w).world.log
            = w.log ++ [.dynLibLoad n (some lib), .invoke lib "loadPlugin".toList])
    ∧ (∀ n lib, resolvePluginName env.platform pluginName = .ok n →
        env.dynLibLoad n = some lib → lib.getSymbol "loadPlugin".toList = none →
        (loadPlugin env pluginName library w).value? = some none
        ∧ (loadPlugin env pluginName library w).world.log
            = w.log ++ [.dynLibLoad n (some lib)])
    ∧ (∀ n, resolvePluginName env.platform pluginName = .ok n →
        env.dynLibLoad n = none →
        (loadPlugin env pluginName library w).value? = some none
        ∧ (loadPlugin env pluginName library w).world.log
            = w.log ++ [.dynLibLoad n none])
    ∧ (∀ n, resolvePluginName env.platform pluginName = .ok n →
        (library = some .mSceneManagerPlugin →
          (loadPlugin env pluginName library w).world.app
            = { w.app with mSceneManagerPlugin := env.dynLibLoad n })
        ∧ (library = none → (loadPlugin env pluginName library w).world.app = w.app))
    ∧ ((∃ lib, LifeEvent.invoke lib "loadPlugin".toList
          ∈ newEvents (loadPlugin env pluginName library w) w) ↔
      ∃ n lib f, resolvePluginName env.platform pluginName = .ok n
        ∧ env.dynLibLoad n = some lib ∧ lib.getSymbol "loadPlugin".toList = some f)
    ∧ (∀ n res, LifeEvent.dynLibLoad n res
          ∈ newEvents (loadPlugin env pluginName library w) w →
        resolvePluginName env.platform pluginName = .ok n ∧ res = env.dynLibLoad n)
    ∧ (∀ l s, LifeEvent.invoke l s ∈ newEvents (loadPlugin env pluginName library w) w →
        s = "loadPlugin".toList ∧ ∃ n, resolvePluginName env.platform pluginName = .ok n
          ∧ env.dynLibLoad n = some l ∧ (l.getSymbol "loadPlugin".toList).isSome) := by
  unfold loadPlugin
  generalize "loadPlugin".toList = sym
  cases hres : resolvePluginName env.platform pluginName with
  | error e =>
    simp [newEvents, raise, bind, Prog.bind, Res.world]
  | ok n =>
    cases hload : env.dynLibLoad n with
    | none =>
      cases library with
      | none =>
        simp [newEvents, emit, bind, Prog.bind, Res.world, Res.value?, pure, hload]
        constructor <;>
          · intros
            subst_vars
            simp_all
      | some slot =>
        cases slot
        simp [newEvents, emit, bind, Prog.bind, Res.world, Res.value?, pure, hload,
          LibrarySlot.store]
        constructor <;>
          · intros
            subst_vars
            simp_all
    | some lib =>
      cases hsym : lib.getSymbol sym with
      | none =>
        cases library with
        | none =>
          simp [newEvents, emit, bind, Prog.bind, Res.world, Res.value?, pure, hload, hsym]
          constructor <;>
            · intros
              subst_vars
              simp_all
        | some slot =>
          cases slot
          simp [newEvents, emit, bind, Prog.bind, Res.world, Res.value?, pure, hload, hsym,
            LibrarySlot.store]
          constructor <;>
            · intros
              subst_vars
              simp_all
      | some f =>
        cases library with
        | none =>
          simp [newEvents, emit, bind, Prog.bind, Res.world, Res.value?, pure, hload, hsym]
          constructor <;>
            · intros
              subst_vars
              simp_all
        | some slot =>
          cases slot
          simp [newEvents, emit, bind, Prog.bind, Res.world, Res.value?, pure, hload, hsym,
            LibrarySlot.store]
          constructor <;>
            · intros
              subst_vars
              simp_all

/-- C3 at concrete loaders, with and without an out-pointer: a module with the
symbol (context 1 returned, entry point invoked after the load, handle stored), a
module without it (null context, handle stored, nothing invoked) and a module that
fails to load (null handle stored, null context, nothing invoked). -/
theorem loadPlugin_contract_witness :
    loadPlugin (envAllLoad .LINUX) "Foo".toList (some .mSceneManagerPlugin) World.new
      = .ok (some 1)
          { app := { Application.new with
                      mSceneManagerPlugin := some (fullPlugin "Foo.so".toList (some 1)) }
            log := [.dynLibLoad "Foo.so".toList (some (fullPlugin "Foo.so".toList (some 1))),
                    .invoke (fullPlugin "Foo.so".toList (some 1)) "loadPlugin".toList] }
    ∧ loadPlugin { envAllLoad .LINUX with dynLibLoad := fun n => some ⟨n, []⟩ }
        "Foo".toList (some .mSceneManagerPlugin) World.new
      = .ok none
          { app := { Application.new with mSceneManagerPlugin := some ⟨"Foo.so".toList, []⟩ }
            log := [.dynLibLoad "Foo.so".toList (some ⟨"Foo.so".toList, []⟩)] }
    ∧ loadPlugin (envMissing .LINUX "Foo.so".toList) "Foo".toList
        (some .mSceneManagerPlugin) World.new
      = .ok none
          { app := { Application.new with mSceneManagerPlugin := none }
            log := [.dynLibLoad "Foo.so".toList none] }
    ∧ ((loadPlugin (envAllLoad .LINUX) "Foo".toList none World.new).value? = some (some 1)
      ∧ (loadPlugin (envAllLoad .LINUX) "Foo".toList none World.new).world.log
          = World.new.log
            ++ [.dynLibLoad "Foo.so".toList (some (fullPlugin "Foo.so".toList (some 1))),
                .invoke (fullPlugin "Foo.so".toList (some 1)) "loadPlugin".toList]) :=
  ⟨by decide!, by decide!, by decide!,
    (loadPlugin_contract (envAllLoad .LINUX) "Foo".toList none World.new).2.1
      "Foo.so".toList (fullPlugin "Foo.so".toList (some 1)) ⟨some 1⟩
      (by decide!) (by decide!) (by decide!)⟩

/-- C4 (what the code does, for every configuration, platform and library loader in
which the scene-manager module fails to load): when `startUp` completes it has
stored the null handle in `mSceneManagerPlugin`, and `shutDown` then does not run
to completion: it ends with a null dereference (in `unloadPlugin`, which looks up
`unloadPlugin` through the null handle, unless there is no window to destroy),
having stopped at most `Importer`, `FontManager`, `MaterialManager`, `MeshManager`. -/
theorem shutDown_faults_after_scene_manager_load_failure (env : Env)
    (desc : START_UP_DESC) (n : CmString) (w1 : World)
    (hres : resolvePluginName env.platform desc.sceneManager = .ok n)
    (hfail : env.dynLibLoad n = none)
    (h1 : startUp env desc World.new = .ok () w1) :
    w1.app.mSceneManagerPlugin = none
    ∧ (shutDown w1).fault? = some .nullDeref
    ∧ ∀ s, s ∈ shutDownOrder (newEvents (shutDown w1) w1) →
        s = .Importer ∨ s = .FontManager ∨ s = .MaterialManager ∨ s = .MeshManager := by
  have hnull : w1.app.mSceneManagerPlugin = none := by
    rw [sets_startUp env desc n hres _ _ _ h1, hfail]
  exact ⟨hnull, shutDown_faults_of_null_plugin w1 hnull⟩

/-- C4 on the sample configuration when the scene-manager module cannot be loaded:
`startUp` completes and leaves `mSceneManagerPlugin` null; `shutDown` then faults
with a null dereference after only four subsystems were stopped. -/
theorem shutDown_faults_after_scene_manager_load_failure_witness :
    startUp (envMissing .WIN32 "BansheeOctreeSM.dll".toList) sampleDesc World.new
      = .ok () sampleStartedNoSceneManager.world
    ∧ sampleStartedNoSceneManager.world.app.mSceneManagerPlugin = none
    ∧ (shutDown sampleStartedNoSceneManager.world).fault? = some .nullDeref
    ∧ shutDownOrder (shutDown sampleStartedNoSceneManager.world).world.log =
        [.Importer, .FontManager, .MaterialManager, .MeshManager] :=
  ⟨by decide!,
    (shutDown_faults_after_scene_manager_load_failure
      (envMissing .WIN32 "BansheeOctreeSM.dll".toList) sampleDesc
      "BansheeOctreeSM.dll".toList sampleStartedNoSceneManager.world
      (by decide!) (by decide!) (by decide!)).1,
    (shutDown_faults_after_scene_manager_load_failure
      (envMissing .WIN32 "BansheeOctreeSM.dll".toList) sampleDesc
      "BansheeOctreeSM.dll".toList sampleStartedNoSceneManager.world
      (by decide!) (by decide!) (by decide!)).2.1,
    by decide!⟩

/-- C5: the Frame Sync Gate invariant, in every state `s` reachable by any
interleaving of `runMainLoop`, the core thread and `stopMainLoop`. The simulation
thread stands at line 137 (`mIsFrameRenderingFinished = false`) only with the flag
true and the gate mutex held; a step that turns the flag from true to false, and
likewise a step that adds a close to the history, is that line 137 step; the
history never closes the gate twice without an open in between; and the closes
exceed the opens by at most one. -/
theorem gate_closes_only_when_open (cfg : LoopConfig) (workers : Nat)
    (sched : List Action) (s : LoopState)
    (hr : run cfg sched (LoopState.init workers) = some s) :
    (s.pc = .L137 → s.mIsFrameRenderingFinished = true ∧ s.mutexHeld = true)
    ∧ (∀ a s1, step cfg a s = some s1 →
        s.mIsFrameRenderingFinished = true → s1.mIsFrameRenderingFinished = false →
        a = .sim ∧ s.pc = .L137 ∧ s.mutexHeld = true
          ∧ s1.log = s.log ++ [.sim s.iter .closeGate])
    ∧ (∀ a s1, step cfg a s = some s1 → closes s1.log = closes s.log + 1 →
        a = .sim ∧ s.pc = .L137 ∧ s.mIsFrameRenderingFinished = true ∧ s.mutexHeld = true
          ∧ s1.mIsFrameRenderingFinished = false)
    ∧ closesAlternate true s.log = true
    ∧ closes s.log ≤ opens s.log + 1 := by
  have hreach : Reachable cfg workers s := ⟨sched, hr⟩
  have hinv := hreach.gateInv
  have hmutex : s.pc = .L137 → s.mutexHeld = true := by
    intro hpc
    rw [hinv.mutex, hpc]
    rfl
  refine ⟨fun hpc => ⟨hinv.atClose hpc, hmutex hpc⟩, ?_, ?_, (reachable_closesAlternate s hreach).1, ?_⟩
  · intro a s1 hs ht hf
    rcases step_gate_effect hs with ⟨hsame, -⟩ | ⟨ha, hpc, -, hl⟩ | ⟨-, -, hopen, -⟩
    · rw [hsame, ht] at hf
      cases hf
    · exact ⟨ha, hpc, hmutex hpc, hl⟩
    · rw [hopen] at hf
      cases hf
  · intro a s1 hs hc
    rcases step_gate_effect hs with ⟨-, hl | ⟨e, hl, he, -⟩⟩ | ⟨ha, hpc, hf, -⟩ | ⟨-, -, -, hl⟩
    · rw [hl] at hc
      omega
    · rw [hl] at hc
      simp [closes, List.countP_append, he] at hc
    · exact ⟨ha, hpc, hinv.atClose hpc, hmutex hpc, hf⟩
    · rw [hl] at hc
      simp [closes, List.countP_append, LoopEvent.isClose] at hc
  · have := hinv.flag
    split at this <;> omega

/-- C5 at a concrete run: the simulation thread alone reaches line 137 of the first
iteration; there the flag is true and the mutex is held, and the step it takes
next is the only kind that closes the gate. -/
theorem gate_closes_only_when_open_witness :
    run noCallback (List.replicate 15 .sim) (LoopState.init 2) = some firstCloseState
    ∧ firstCloseState.pc = .L137
    ∧ (firstCloseState.pc = .L137 →
        firstCloseState.mIsFrameRenderingFinished = true ∧ firstCloseState.mutexHeld = true)
    ∧ (step noCallback .sim firstCloseState).map LoopState.mIsFrameRenderingFinished
        = some false
    ∧ closes firstCloseState.log ≤ opens firstCloseState.log + 1 :=
  ⟨by decide!, by decide!,
    (gate_closes_only_when_open noCallback 2 (List.replicate 15 .sim) firstCloseState
      (by decide!)).1,
    by decide!,
    (gate_closes_only_when_open noCallback 2 (List.replicate 15 .sim) firstCloseState
      (by decide!)).2.2.2.2⟩

/-- C6: for every `N` there are runs from the constructor state (gate open) in which
the loop has executed exactly `N` complete iterations and the core thread has
executed every queued command (the lockstep schedule is one); and in every such
run, under any interleaving, when the simulation thread stands between iterations
(or has returned) with `N` iterations complete and the core thread's queue, served
oldest first, is empty, the simulation thread has passed the gate exactly `N`
times, exactly `N` gate signals have been queued and exactly `N` have run, and the
gate is open. -/
theorem gate_counts_after_iterations (cfg : LoopConfig) (workers N : Nat) :
    (∃ sched s, run noCallback sched (LoopState.init workers) = some s
        ∧ s.iter = N ∧ s.pc.inBody = false ∧ s.queue = [])
    ∧ ∀ sched s, run cfg sched (LoopState.init workers) = some s →
        s.iter = N → s.pc.inBody = false → s.queue = [] →
        closes s.log = N ∧ signalsQueued s.log = N ∧ opens s.log = N
        ∧ s.mIsFrameRenderingFinished = true := by
  constructor
  · obtain ⟨sched, s, hr, hpc, -, -, -, hq, hit⟩ := lockstep_run_exists workers N
    exact ⟨sched, s, hr, hit, by rw [hpc]; rfl, hq⟩
  intro sched s hr hN hb hq
  have hreach : Reachable cfg workers s := ⟨sched, hr⟩
  have hg := hreach.gateInv
  have h1 := hg.closes_eq
  have h2 := hg.queued_eq
  have h3 := hg.opens_eq
  have h4 := hg.flag
  rw [hq] at h3
  have hp : s.pc.passedGate = 0 ∧ s.pc.signalQueued = 0 := by
    revert hb
    cases s.pc <;> simp [Pc.inBody, Pc.passedGate, Pc.signalQueued]
  rw [hp.1] at h1
  rw [hp.2] at h2
  simp only [List.count_nil, Nat.add_zero] at h1 h2 h3
  refine ⟨by omega, by omega, by omega, ?_⟩
  cases hf : s.mIsFrameRenderingFinished with
  | true => rfl
  | false =>
    rw [hf] at h4
    simp at h4
    omega

/-- C6 at `N = 3`: three iterations in lockstep; the gate signal was observed
exactly 3 times and the gate is open. -/
theorem gate_counts_after_iterations_witness :
    run noCallback threeIterations (LoopState.init 2) = some threeIterationsState
    ∧ threeIterationsState.iter = 3
    ∧ threeIterationsState.queue = []
    ∧ closes threeIterationsState.log = 3
    ∧ signalsQueued threeIterationsState.log = 3
    ∧ opens threeIterationsState.log = 3
    ∧ threeIterationsState.mIsFrameRenderingFinished = true :=
  ⟨by decide!, by decide!, by decide!,
    (gate_counts_after_iterations noCallback 2 3).2 threeIterations threeIterationsState
      (by decide!) (by decide!) (by decide!) (by decide!)⟩

/-- C7 (counterexample): in the second iteration, with the gate still closed for
the previous frame (the core thread has run nothing, the previous gate signal is
still queued) and before the simulation thread has locked the gate mutex or waited,
it has already queued two commands of the new frame: the begin-profiling marker and
the query-manager update stand in the core thread's queue behind the previous
frame's gate signal. -/
theorem queueCommand_precedes_gate_wait :
    (run noCallback earlyQueueSchedule (LoopState.init 2)).map LoopState.pc = some .L118
    ∧ (run noCallback earlyQueueSchedule (LoopState.init 2)).map LoopState.iter = some 1
    ∧ (run noCallback earlyQueueSchedule (LoopState.init 2)).map
        LoopState.mIsFrameRenderingFinished = some false
    ∧ (run noCallback earlyQueueSchedule (LoopState.init 2)).map
        (fun s => simEvents 1 s.log)
        = some [.beginThread, .coreThreadUpdate, .platformUpdate, .deferredCallUpdate,
            .renderWindowUpdate, .inputUpdate, .sceneManagerUpdate,
            .queueCommand .beginCoreProfiling, .queueCommand .queryManagerUpdate]
    ∧ (run noCallback earlyQueueSchedule (LoopState.init 2)).map LoopState.queue
        = some [.beginCoreProfiling, .queryManagerUpdate, .platformCoreUpdate,
            .endCoreProfiling, .frameRenderingFinishedCallback,
            .beginCoreProfiling, .queryManagerUpdate] := by
  decide!

/-- C7 (amended): in the history of every run, for every iteration `k` (counted
from 0). (1) Wherever iteration `k` queues the platform core update, the
end-profiling marker or the gate signal, its close of the gate (line 137) comes
earlier in the history. (2) Wherever iteration `k` closes the gate, it does so from
a state of the run standing at line 137 with the gate mutex held and the flag
`mIsFrameRenderingFinished` true, that is, after the test of line 130 found the gate
open: at that moment the gate has been closed `k` times and the gate signal has run
`k` times, so the signal of every earlier frame, the previous one included, has
run; the iteration locked the mutex before, and between the lock and the close it
did nothing but rounds of the wait (`addWorker`, wait, wake, `removeWorker`). (3)
Wherever iteration `k` enters `CM_THREAD_WAIT`, it does so from a state at line 133
with the mutex held and the flag false: it waits only while the gate is closed,
one close being unanswered by a gate signal. (4) Wherever iteration `k` locks the
mutex for the gate wait, it has already queued the begin-profiling marker and the
query-manager update and called `renderAll`, and has queued none of the three late
commands. (5) The same order, by membership at any moment. -/
theorem late_commands_follow_gate (cfg : LoopConfig) (workers : Nat)
    (sched : List Action) (s : LoopState)
    (hr : run cfg sched (LoopState.init workers) = some s) (k : Nat) :
    (∀ pre post c, s.log = pre ++ LoopEvent.sim k (.queueCommand c) :: post →
        c = .platformCoreUpdate ∨ c = .endCoreProfiling ∨ c = .frameRenderingFinishedCallback →
        LoopEvent.sim k .closeGate ∈ pre)
    ∧ (∀ pre post, s.log = pre ++ LoopEvent.sim k .closeGate :: post →
        (∃ s0, Reachable cfg workers s0 ∧ s0.log = pre ∧ s0.pc = .L137 ∧ s0.iter = k
          ∧ s0.mutexHeld = true ∧ s0.mIsFrameRenderingFinished = true
          ∧ step cfg .sim s0 = some { s0.call .closeGate .L138 with
              mIsFrameRenderingFinished := false })
        ∧ gateAfter true pre = true
        ∧ closes pre = k ∧ opens pre = k
        ∧ LoopEvent.sim k .lockMutex ∈ pre
        ∧ ∃ w, simEvents k pre = beforeGate cfg ++ waitRounds w)
    ∧ (∀ pre post, s.log = pre ++ LoopEvent.sim k .wait :: post →
        ∃ s0, Reachable cfg workers s0 ∧ s0.log = pre ∧ s0.pc = .L133 ∧ s0.iter = k
          ∧ s0.mutexHeld = true ∧ s0.mIsFrameRenderingFinished = false
          ∧ gateAfter true pre = false ∧ closes pre = opens pre + 1)
    ∧ (∀ pre post, s.log = pre ++ LoopEvent.sim k .lockMutex :: post →
        LoopEvent.sim k (.queueCommand .beginCoreProfiling) ∈ pre
        ∧ LoopEvent.sim k (.queueCommand .queryManagerUpdate) ∈ pre
        ∧ LoopEvent.sim k .renderAll ∈ pre
        ∧ LoopEvent.sim k (.queueCommand .platformCoreUpdate) ∉ pre
        ∧ LoopEvent.sim k (.queueCommand .endCoreProfiling) ∉ pre
        ∧ LoopEvent.sim k (.queueCommand .frameRenderingFinishedCallback) ∉ pre)
    ∧ (∀ c, SimEvent.queueCommand c ∈ simEvents k s.log →
        c = .platformCoreUpdate ∨ c = .endCoreProfiling ∨ c = .frameRenderingFinishedCallback →
        SimEvent.closeGate ∈ simEvents k s.log)
    ∧ (SimEvent.closeGate ∈ simEvents k s.log → SimEvent.lockMutex ∈ simEvents k s.log)
    ∧ (SimEvent.lockMutex ∈ simEvents k s.log →
        SimEvent.queueCommand .beginCoreProfiling ∈ simEvents k s.log
        ∧ SimEvent.queueCommand .queryManagerUpdate ∈ simEvents k s.log
        ∧ SimEvent.renderAll ∈ simEvents k s.log) := by
  have hreach : Reachable cfg workers s := ⟨sched, hr⟩
  -- what iteration `k` had done right after an entry was added
  have after : ∀ pre ev post, s.log = pre ++ LoopEvent.sim k ev :: post →
      ∃ s0 s1, Reachable cfg workers s0 ∧ Reachable cfg workers s1
        ∧ (∃ a, step cfg a s0 = some s1) ∧ s0.log = pre
        ∧ s1.log = pre ++ [LoopEvent.sim k ev]
        ∧ simEvents k s1.log = simEvents k pre ++ [ev] := by
    intro pre ev post h
    obtain ⟨s0, a, s1, hr0, hs, hl0, hl1⟩ := reachable_moment s hreach pre _ post h
    refine ⟨s0, s1, hr0, hr0.step hs, ⟨a, hs⟩, hl0, hl1, ?_⟩
    rw [hl1, simEvents_append, simEvents_sim]
    simp
  refine ⟨?_, ?_, ?_, ?_, simEvents_order hreach k⟩
  · intro pre post c h hc
    obtain ⟨s0, s1, -, hr1, -, -, -, hev⟩ := after pre _ post h
    have hmem : SimEvent.queueCommand c ∈ simEvents k s1.log := by
      rw [hev]
      simp
    have hclose := (simEvents_order hr1 k).1 c hmem hc
    rw [hev] at hclose
    simp only [List.mem_append, List.mem_singleton] at hclose
    rcases hclose with h1 | h1
    · exact (mem_simEvents k _ pre).mp h1
    · cases h1
  · intro pre post h
    obtain ⟨s0, s1, hr0, hr1, ⟨a, hs⟩, hl0, hl1, hev⟩ := after pre _ post h
    have hl1' : s1.log = s0.log ++ [LoopEvent.sim k .closeGate] := by rw [hl0]; exact hl1
    obtain ⟨ha, hpc, hit⟩ := close_step hs hl1'
    have hg := hr0.gateInv
    have hfin : s0.mIsFrameRenderingFinished = true := hg.atClose hpc
    have hmu : s0.mutexHeld = true := by
      rw [hg.mutex, hpc]
      rfl
    have hcl : closes s0.log = k := by
      have := hg.closes_eq
      rw [hpc, hit] at this
      simpa [Pc.passedGate] using this
    have hop : opens s0.log = k := by
      have := hg.flag
      rw [hfin] at this
      simp at this
      omega
    have hlock : SimEvent.lockMutex ∈ simEvents k s1.log :=
      (simEvents_order hr1 k).2.1 (by rw [hev]; simp)
    rw [hev] at hlock
    simp only [List.mem_append, List.mem_singleton] at hlock
    refine ⟨⟨s0, hr0, hl0, hpc, hit, hmu, hfin, ?_⟩, ?_, ?_, ?_, ?_, ?_⟩
    · simp [step, runMainLoopStep, hpc]
    · rw [← hl0, (reachable_closesAlternate s0 hr0).2, hfin]
    · rw [← hl0]; exact hcl
    · rw [← hl0]; exact hop
    · rcases hlock with h1 | h1
      · exact (mem_simEvents k _ pre).mp h1
      · cases h1
    · obtain ⟨w, hw⟩ := hr0.traceInv.current
      rw [hit, hl0, hpc] at hw
      exact ⟨w, hw⟩
  · intro pre post h
    obtain ⟨s0, s1, hr0, hr1, ⟨a, hs⟩, hl0, hl1, hev⟩ := after pre _ post h
    have hl1' : s1.log = s0.log ++ [LoopEvent.sim k .wait] := by rw [hl0]; exact hl1
    obtain ⟨ha, hpc, hit⟩ := wait_step hs hl1'
    have hg := hr0.gateInv
    have hfin : s0.mIsFrameRenderingFinished = false := hg.waitingClosed (Or.inr hpc)
    have hmu : s0.mutexHeld = true := by
      rw [hg.mutex, hpc]
      rfl
    refine ⟨s0, hr0, hl0, hpc, hit, hmu, hfin, ?_, ?_⟩
    · rw [← hl0, (reachable_closesAlternate s0 hr0).2, hfin]
    · have := hg.flag
      rw [hfin] at this
      rw [← hl0]
      simpa using this
  · intro pre post h
    obtain ⟨s0, s1, hr0, hr1, -, hl0, -, hev⟩ := after pre _ post h
    have hearly := (simEvents_order hr1 k).2.2 (by rw [hev]; simp)
    rw [hev] at hearly
    simp only [List.mem_append, List.mem_singleton] at hearly
    have hno : ∀ c, c = Command.platformCoreUpdate ∨ c = .endCoreProfiling
        ∨ c = .frameRenderingFinishedCallback →
        LoopEvent.sim k (.queueCommand c) ∉ pre := by
      intro c hc hmem
      have h1 : SimEvent.queueCommand c ∈ simEvents k s0.log := by
        rw [hl0]
        exact (mem_simEvents k _ pre).mpr hmem
      have h2 := (simEvents_order hr0 k).2.1 ((simEvents_order hr0 k).1 c h1 hc)
      rw [hl0] at h2
      have h3 := count_lockMutex_le hr1 k
      rw [hev, List.count_append] at h3
      have h4 : 0 < (simEvents k pre).count SimEvent.lockMutex := List.count_pos_iff.mpr h2
      simp at h3
      omega
    refine ⟨?_, ?_, ?_, hno _ (Or.inl rfl), hno _ (Or.inr (Or.inl rfl)),
      hno _ (Or.inr (Or.inr rfl))⟩
    · rcases hearly.1 with h1 | h1
      · exact (mem_simEvents k _ pre).mp h1
      · cases h1
    · rcases hearly.2.1 with h1 | h1
      · exact (mem_simEvents k _ pre).mp h1
      · cases h1
    · rcases hearly.2.2 with h1 | h1
      · exact (mem_simEvents k _ pre).mp h1
      · cases h1

/-- C7 (amended) at a concrete run: in the run with a spurious wake-up the second
iteration closes the gate at position 44 of the history; before it, that iteration
has locked the mutex, and the gate had been closed once and opened once: the first
frame's gate signal had run. -/
theorem late_commands_follow_gate_witness :
    run noCallback spuriousWakeSchedule (LoopState.init 2) = some spuriousWakeState
    ∧ spuriousWakeState.log
        = spuriousWakeState.log.take 44 ++ LoopEvent.sim 1 .closeGate
            :: spuriousWakeState.log.drop 45
    ∧ gateAfter true (spuriousWakeState.log.take 44) = true
    ∧ closes (spuriousWakeState.log.take 44) = 1
    ∧ opens (spuriousWakeState.log.take 44) = 1
    ∧ LoopEvent.sim 1 .lockMutex ∈ spuriousWakeState.log.take 44 :=
  ⟨by decide!, by decide!,
    ((late_commands_follow_gate noCallback 2 spuriousWakeSchedule spuriousWakeState
      (by decide!) 1).2.1 (spuriousWakeState.log.take 44) (spuriousWakeState.log.drop 45)
      (by decide!)).2.1,
    ((late_commands_follow_gate noCallback 2 spuriousWakeSchedule spuriousWakeState
      (by decide!) 1).2.1 (spuriousWakeState.log.take 44) (spuriousWakeState.log.drop 45)
      (by decide!)).2.2.1,
    ((late_commands_follow_gate noCallback 2 spuriousWakeSchedule spuriousWakeState
      (by decide!) 1).2.1 (spuriousWakeState.log.take 44) (spuriousWakeState.log.drop 45)
      (by decide!)).2.2.2.1,
    ((late_commands_follow_gate noCallback 2 spuriousWakeSchedule spuriousWakeState
      (by decide!) 1).2.1 (spuriousWakeState.log.take 44) (spuriousWakeState.log.drop 45)
      (by decide!)).2.2.2.2.1⟩

/-- C8: worker-pool donation is balanced, at every moment of every run. The worker
count is its value at the start plus one exactly while a donation is outstanding
(between line 132 and line 134), so after the wait it is what it was before the
wait. In every completed iteration, whatever the number `w` of wake-ups its wait
took, `addWorker` and `removeWorker` were each called `w` times and the calls go
add, remove, add, remove, ...; in the iteration under way the calls so far
alternate the same way, ending in an unmatched `addWorker` exactly while a
donation is outstanding. -/
theorem worker_donation_balanced (cfg : LoopConfig) (workers : Nat)
    (sched : List Action) (s : LoopState)
    (hr : run cfg sched (LoopState.init workers) = some s) :
    s.workers = workers + s.pc.donated
    ∧ (s.pc.donated = 0 → s.workers = workers)
    ∧ (∀ k, k < s.iter → ∃ w,
        (simEvents k s.log).count .wake = w
        ∧ (simEvents k s.log).count .addWorker = w
        ∧ (simEvents k s.log).count .removeWorker = w
        ∧ workerCalls (simEvents k s.log) = donateReclaim w)
    ∧ (∃ w, workerCalls (simEvents s.iter s.log)
        = donateReclaim w ++ if s.pc.donated = 1 then [SimEvent.addWorker] else []) := by
  have hreach : Reachable cfg workers s := ⟨sched, hr⟩
  have hg := hreach.gateInv
  have ht := hreach.traceInv
  refine ⟨hg.workers_eq, ?_, ?_, ?_⟩
  · intro h0
    rw [hg.workers_eq, h0]
    rfl
  · intro k hk
    obtain ⟨w, hw⟩ := ht.earlier k hk
    refine ⟨w, ?_, ?_, ?_, ?_⟩
    · rw [hw]
      exact count_iterationTrace cfg w _ (by simp [waitRound])
    · rw [hw]
      exact count_iterationTrace cfg w _ (by simp [waitRound])
    · rw [hw]
      exact count_iterationTrace cfg w _ (by simp [waitRound])
    · rw [hw]
      exact workerCalls_iterationTrace cfg w
  · obtain ⟨w, hw⟩ := ht.current
    rw [hw]
    exact workerCalls_tracePrefix cfg w s.pc

/-- C8 at a concrete run: after the run with a spurious wake-up, two iterations are
complete, the worker count is back at 2, and the second iteration called
`addWorker` and `removeWorker` twice each, alternately. -/
theorem worker_donation_balanced_witness :
    run noCallback spuriousWakeSchedule (LoopState.init 2) = some spuriousWakeState
    ∧ spuriousWakeState.iter = 2
    ∧ spuriousWakeState.workers = 2
    ∧ workerCalls (simEvents 1 spuriousWakeState.log)
        = [.addWorker, .removeWorker, .addWorker, .removeWorker]
    ∧ (∀ k, k < spuriousWakeState.iter → ∃ w,
        (simEvents k spuriousWakeState.log).count .wake = w
        ∧ (simEvents k spuriousWakeState.log).count .addWorker = w
        ∧ (simEvents k spuriousWakeState.log).count .removeWorker = w
        ∧ workerCalls (simEvents k spuriousWakeState.log) = donateReclaim w) :=
  ⟨by decide!, by decide!, by decide!, by decide!,
    (worker_donation_balanced noCallback 2 spuriousWakeSchedule spuriousWakeState
      (by decide!)).2.2.1⟩

/-- C9: stopping the loop. Let `s` be any state of any run in which the simulation
thread is inside an iteration (iteration `k`, after `k = s.iter` complete ones). A
call of `stopMainLoop()` from another thread can be made there, and let `s0` be the
state right after such a call, or right after `mainLoopCallback` called
`stopMainLoop()` at line 119. Then the call has set the run flag to false and left
the simulation thread inside iteration `k`, and: (1) along every continuation the
flag stays false, the loop is either still inside iteration `k`, or stands at the
loop condition or has returned with iteration `k` complete, in which case
iteration `k` did all its statements through the profiler update; it returns only
with iteration `k` complete, so at most one iteration completes after the request
and none begins; at the loop condition the next statement returns; and from
wherever the continuation has got to, the loop can still return. (2) No step from
inside the iteration returns: the loop never exits mid-iteration. (3) Some
continuation ends with `runMainLoop` returned, exactly iteration `k` having been
completed since the request. -/
theorem stop_completes_iteration (cfg : LoopConfig) (workers : Nat)
    (sched : List Action) (s : LoopState)
    (hr : run cfg sched (LoopState.init workers) = some s)
    (hbody : s.pc.inBody = true) :
    step cfg .stop s = some { stopMainLoop s with log := s.log ++ [.stopMainLoop] }
    ∧ (stopMainLoop s).mRunMainLoop = false
    ∧ ∀ s0, (step cfg .stop s = some s0
          ∨ ∃ callback, cfg.mainLoopCallback = some callback ∧ s.pc = .L118
              ∧ callback s.iter = true ∧ step cfg .sim s = some s0) →
        s0.mRunMainLoop = false ∧ s0.iter = s.iter ∧ s0.pc.inBody = true
        ∧ (∀ sched1 s1, run cfg sched1 s0 = some s1 →
            s1.mRunMainLoop = false
            ∧ s1.iter ≤ s.iter + 1
            ∧ (s1.iter = s.iter → s1.pc.inBody = true)
            ∧ (s1.iter = s.iter + 1 → (s1.pc = .L103 ∨ s1.pc = .L150)
                ∧ ∃ w, simEvents s.iter s1.log = iterationTrace cfg w)
            ∧ (s1.pc = .L150 → s1.iter = s.iter + 1)
            ∧ (s1.pc = .L103 → (step cfg .sim s1).map LoopState.pc = some .L150)
            ∧ ∃ sched2 s2, run cfg sched2 s1 = some s2 ∧ s2.pc = .L150
                ∧ s2.iter = s.iter + 1)
        ∧ (∀ a s1, step cfg a s0 = some s1 → s1.pc ≠ .L150)
        ∧ (∃ sched1 s1, run cfg sched1 s0 = some s1 ∧ s1.pc = .L150
            ∧ s1.iter = s.iter + 1) := by
  have hreach : Reachable cfg workers s := ⟨sched, hr⟩
  refine ⟨rfl, rfl, ?_⟩
  intro s0 h0
  have key : Reachable cfg workers s0 ∧ s0.mRunMainLoop = false ∧ s0.iter = s.iter
      ∧ s0.pc.inBody = true := by
    rcases h0 with hs | ⟨callback, hcb, hpc, hc, hs⟩
    · refine ⟨hreach.step hs, ?_⟩
      simp only [step, stopMainLoop, Option.some.injEq] at hs
      subst hs
      exact ⟨rfl, rfl, hbody⟩
    · refine ⟨hreach.step hs, ?_⟩
      simp only [step, runMainLoopStep, hpc, hcb, hc, if_true, stopMainLoop,
        LoopState.call, Option.some.injEq] at hs
      subst hs
      exact ⟨rfl, rfl, rfl⟩
  obtain ⟨hreach0, hflag, hit, hb0⟩ := key
  have := stopped_iteration_completes hreach0 hb0 hflag
  rw [hit] at this
  exact ⟨hflag, hit, hb0, this⟩

/-- C9 at a concrete run: the callback calls `stopMainLoop()` at line 119 of the
first iteration; right after, the flag is false with the loop inside that
iteration, no step from there returns, and there is a continuation that returns
with exactly that one iteration complete. -/
theorem stop_completes_iteration_witness :
    run stopInFirstIteration (List.replicate 11 .sim) (LoopState.init 2)
        = some beforeCallbackState
    ∧ beforeCallbackState.pc = .L118
    ∧ step stopInFirstIteration .sim beforeCallbackState = some callbackStopState
    ∧ callbackStopState.mRunMainLoop = false
    ∧ callbackStopState.iter = beforeCallbackState.iter
    ∧ (∀ a s1, step stopInFirstIteration a callbackStopState = some s1 → s1.pc ≠ .L150)
    ∧ (∃ sched1 s1, run stopInFirstIteration sched1 callbackStopState = some s1
        ∧ s1.pc = .L150 ∧ s1.iter = beforeCallbackState.iter + 1) :=
  ⟨by decide!, by decide!, by decide!,
    ((stop_completes_iteration stopInFirstIteration 2 (List.replicate 11 .sim)
      beforeCallbackState (by decide!) (by decide!)).2.2 callbackStopState
      (Or.inr ⟨fun i => i == 0, rfl, by decide!, by decide!, by decide!⟩)).1,
    ((stop_completes_iteration stopInFirstIteration 2 (List.replicate 11 .sim)
      beforeCallbackState (by decide!) (by decide!)).2.2 callbackStopState
      (Or.inr ⟨fun i => i == 0, rfl, by decide!, by decide!, by decide!⟩)).2.1,
    ((stop_completes_iteration stopInFirstIteration 2 (List.replicate 11 .sim)
      beforeCallbackState (by decide!) (by decide!)).2.2 callbackStopState
      (Or.inr ⟨fun i => i == 0, rfl, by decide!, by decide!, by decide!⟩)).2.2.2.2⟩

/-- C10 (counterexample): in the run with a spurious wake-up the simulation thread
blocks on the gate in the second iteration, and in that one logical wait
`addWorker` is called twice and `removeWorker` twice, not once each. -/
theorem addWorker_twice_in_one_wait :
    run noCallback spuriousWakeSchedule (LoopState.init 2) = some spuriousWakeState
    ∧ spuriousWakeState.iter = 2
    ∧ (simEvents 1 spuriousWakeState.log).count .closeGate = 1
    ∧ (simEvents 1 spuriousWakeState.log).count .wake = 2
    ∧ (simEvents 1 spuriousWakeState.log).count .addWorker = 2
    ∧ (simEvents 1 spuriousWakeState.log).count .removeWorker = 2 := by
  decide!

/-- C10 (amended): `addWorker` and `removeWorker` are called once per wake-up of the
wait, not once per wait. In every completed iteration `k` of every run, the number
of `addWorker` calls, the number of times the thread blocked in `CM_THREAD_WAIT`
and the number of `removeWorker` calls all equal the number of wake-ups of that
iteration's wait (zero when the gate was found open at once). -/
theorem donation_once_per_wakeup (cfg : LoopConfig) (workers : Nat)
    (sched : List Action) (s : LoopState)
    (hr : run cfg sched (LoopState.init workers) = some s) (k : Nat) (hk : k < s.iter) :
    (simEvents k s.log).count .addWorker = (simEvents k s.log).count .wake
    ∧ (simEvents k s.log).count .removeWorker = (simEvents k s.log).count .wake
    ∧ (simEvents k s.log).count .wait = (simEvents k s.log).count .wake
    ∧ (simEvents k s.log).count .closeGate = 1 := by
  have hreach : Reachable cfg workers s := ⟨sched, hr⟩
  obtain ⟨w, hw⟩ := hreach.traceInv.earlier k hk
  rw [hw]
  have h1 := count_iterationTrace cfg w .addWorker (by simp [waitRound])
  have h2 := count_iterationTrace cfg w .removeWorker (by simp [waitRound])
  have h3 := count_iterationTrace cfg w .wait (by simp [waitRound])
  have h4 := count_iterationTrace cfg w .wake (by simp [waitRound])
  refine ⟨by rw [h1, h4], by rw [h2, h4], by rw [h3, h4], ?_⟩
  simp only [iterationTrace, beforeGate, List.count_append, count_waitRounds,
    count_callbackEvents cfg .closeGate (by simp)]
  simp [updates, earlyCommands, afterGate, waitRound]

/-- C10 (amended) at a concrete run: the completed second iteration of the run with
a spurious wake-up was woken twice in its wait and called `addWorker` twice. -/
theorem donation_once_per_wakeup_witness :
    run noCallback spuriousWakeSchedule (LoopState.init 2) = some spuriousWakeState
    ∧ (1 : Nat) < spuriousWakeState.iter
    ∧ (simEvents 1 spuriousWakeState.log).count .addWorker
        = (simEvents 1 spuriousWakeState.log).count .wake
    ∧ (simEvents 1 spuriousWakeState.log).count .wake = 2 :=
  ⟨by decide!, by decide!,
    (donation_once_per_wakeup noCallback 2 spuriousWakeSchedule spuriousWakeState
      (by decide!) 1 (by decide!)).1,
    by decide!⟩

end BansheeEngine
